import Mathlib

/-!
# DTM0660 multimeter frame decoder (`src/dmm/dtm0660.c`)

A shallow embedding of the DTM0660 protocol parser of libsigrok and the
properties of its specification.

Modelling conventions.

* A frame is the 15-byte buffer `buf`; a byte is a `Fin 256` and is read as a
  natural number (`(buf i).val`), as C promotes `uint8_t` to `int`.
* Output parameters written through pointers are passed in and returned
  (explicit state passing).
* The C type `float` is modelled by `CFloat`: a finite value held as the
  rational number it denotes, one of the two infinities, or NaN.  Every
  conversion, product and quotient is rounded to binary32 (`CFloat.round`:
  round to nearest, ties to even, subnormal range, overflow to infinity), as
  on a target that evaluates `float` expressions in `float`.  The sign of
  zero is not modelled (`-0.0` and `0.0` compare equal in C).
* Logging calls (`sr_dbg`, `sr_spew`) have no effect on the results and are
  left out.
-/

namespace Dtm0660

/-! ## Types the parser uses -/

/-- Modelled from the spec: the frame length `DTM0660_PACKET_SIZE` (declared in
`libsigrok-internal.h`); the instrument emits 15-byte frames. -/
abbrev DTM0660_PACKET_SIZE : Nat := 15

/-- The 15-byte frame handed to the parser (`const uint8_t *buf`). -/
abbrev Frame := Fin DTM0660_PACKET_SIZE → Fin 256

/-- Modelled from the spec: the status codes of `libsigrok.h`, success and the
generic failure. -/
inductive SrStatus where
  | SR_OK
  | SR_ERR
  deriving DecidableEq, Repr

export SrStatus (SR_OK SR_ERR)

/-- Rounding of a rational to the nearest integer, ties to the even one. -/
def roundHalfEven (y : ℚ) : ℤ :=
  if y - ⌊y⌋ < 1 / 2 then ⌊y⌋
  else if 1 / 2 < y - ⌊y⌋ then ⌊y⌋ + 1
  else if ⌊y⌋ % 2 = 0 then ⌊y⌋ else ⌊y⌋ + 1

/-- The C type `float` (binary32): a finite value, an infinity, or NaN. -/
inductive CFloat where
  | fin (q : ℚ)
  | pinf
  | ninf
  | nan
  deriving DecidableEq

namespace CFloat

/-- Rounding of an exact result to binary32, round to nearest, ties to even:
the quantum is `2 ^ (e - 23)` with `e` the binary exponent of `x`, not below
`-126` (subnormal range); a rounded magnitude of `2 ^ 128` or more overflows
to the infinity of the sign of `x`. -/
def round (x : ℚ) : CFloat :=
  if x = 0 then fin 0
  else if (2 : ℚ) ^ 128 ≤
      |(roundHalfEven (x / 2 ^ (max (Int.log 2 |x|) (-126) - 23)) : ℚ) *
        2 ^ (max (Int.log 2 |x|) (-126) - 23)| then
    (if 0 < x then pinf else ninf)
  else fin (roundHalfEven (x / 2 ^ (max (Int.log 2 |x|) (-126) - 23)) *
    2 ^ (max (Int.log 2 |x|) (-126) - 23))

/-- Conversion `(float)n` of an integer. -/
def ofInt (n : Int) : CFloat := round (n : ℚ)

/-- The constant `INFINITY` of `math.h`. -/
def INFINITY : CFloat := pinf

/-- Float multiplication `x * y`: the exact product rounded to binary32. -/
def mul : CFloat → CFloat → CFloat
  | nan, _ => nan
  | _, nan => nan
  | fin a, fin b => round (a * b)
  | fin a, pinf => if a = 0 then nan else if 0 < a then pinf else ninf
  | fin a, ninf => if a = 0 then nan else if 0 < a then ninf else pinf
  | pinf, fin b => if b = 0 then nan else if 0 < b then pinf else ninf
  | ninf, fin b => if b = 0 then nan else if 0 < b then ninf else pinf
  | pinf, pinf => pinf
  | pinf, ninf => ninf
  | ninf, pinf => ninf
  | ninf, ninf => pinf

/-- Float division `x / y`: the exact quotient rounded to binary32. -/
def div : CFloat → CFloat → CFloat
  | nan, _ => nan
  | _, nan => nan
  | fin a, fin b =>
      if b = 0 then (if a = 0 then nan else if 0 < a then pinf else ninf)
      else round (a / b)
  | fin _, pinf => fin 0
  | fin _, ninf => fin 0
  | pinf, fin b => if 0 ≤ b then pinf else ninf
  | ninf, fin b => if 0 ≤ b then ninf else pinf
  | pinf, pinf => nan
  | pinf, ninf => nan
  | ninf, pinf => nan
  | ninf, ninf => nan

/-- Float comparison `x == y` (false as soon as one side is NaN). -/
def eq (x y : CFloat) : Bool :=
  match x, y with
  | nan, _ => false
  | _, nan => false
  | a, b => decide (a = b)

end CFloat

/-- Modelled from the spec: the measured quantities (`SR_MQ_*` of
`libsigrok.h`) the parser assigns; `other` stands for any other value the
caller left in the output record. -/
inductive sr_mq where
  | SR_MQ_VOLTAGE
  | SR_MQ_CURRENT
  | SR_MQ_RESISTANCE
  | SR_MQ_CAPACITANCE
  | SR_MQ_TEMPERATURE
  | SR_MQ_FREQUENCY
  | SR_MQ_DUTY_CYCLE
  | SR_MQ_CONTINUITY
  | other (n : Nat)
  deriving DecidableEq

/-- Modelled from the spec: the units (`SR_UNIT_*` of `libsigrok.h`) the
parser assigns; `other` stands for any other value the caller left in the
output record. -/
inductive sr_unit where
  | SR_UNIT_VOLT
  | SR_UNIT_AMPERE
  | SR_UNIT_OHM
  | SR_UNIT_FARAD
  | SR_UNIT_CELSIUS
  | SR_UNIT_FAHRENHEIT
  | SR_UNIT_HERTZ
  | SR_UNIT_PERCENTAGE
  | SR_UNIT_BOOLEAN
  | other (n : Nat)
  deriving DecidableEq

/-- Modelled from the spec: the modifier flags (`SR_MQFLAG_*` of
`libsigrok.h`, one bit each) the parser can add; `other` stands for any other
bit of the mask. -/
inductive sr_mqflag where
  | SR_MQFLAG_AC
  | SR_MQFLAG_DC
  | SR_MQFLAG_AUTORANGE
  | SR_MQFLAG_DIODE
  | SR_MQFLAG_HOLD
  | SR_MQFLAG_RELATIVE
  | SR_MQFLAG_MIN
  | SR_MQFLAG_MAX
  | other (bit : Nat)
  deriving DecidableEq

export sr_mq (SR_MQ_VOLTAGE SR_MQ_CURRENT SR_MQ_RESISTANCE SR_MQ_CAPACITANCE
  SR_MQ_TEMPERATURE SR_MQ_FREQUENCY SR_MQ_DUTY_CYCLE SR_MQ_CONTINUITY)
export sr_unit (SR_UNIT_VOLT SR_UNIT_AMPERE SR_UNIT_OHM SR_UNIT_FARAD
  SR_UNIT_CELSIUS SR_UNIT_FAHRENHEIT SR_UNIT_HERTZ SR_UNIT_PERCENTAGE
  SR_UNIT_BOOLEAN)
export sr_mqflag (SR_MQFLAG_AC SR_MQFLAG_DC SR_MQFLAG_AUTORANGE SR_MQFLAG_DIODE
  SR_MQFLAG_HOLD SR_MQFLAG_RELATIVE SR_MQFLAG_MIN SR_MQFLAG_MAX)

/-- Modelled from the spec: the fields of `struct sr_datafeed_analog_old`
(`libsigrok.h`) the parser writes: quantity, unit and the modifier set
(a bit mask in C, `|=` adds a member). -/
structure sr_datafeed_analog_old where
  mq : sr_mq
  unit : sr_unit
  mqflags : Finset sr_mqflag
  deriving DecidableEq

/-- Modelled from the spec: `struct dtm0660_info` (`libsigrok-internal.h`),
one boolean per flag of the frame. -/
structure dtm0660_info where
  is_ac : Bool
  is_dc : Bool
  is_auto : Bool
  is_rs232 : Bool
  is_sign : Bool
  is_micro : Bool
  is_nano : Bool
  is_kilo : Bool
  is_diode : Bool
  is_milli : Bool
  is_percent : Bool
  is_mega : Bool
  is_beep : Bool
  is_farad : Bool
  is_ohm : Bool
  is_rel : Bool
  is_hold : Bool
  is_ampere : Bool
  is_volt : Bool
  is_hz : Bool
  is_bat : Bool
  is_degf : Bool
  is_degc : Bool
  is_c2c1_00 : Bool
  is_c2c1_01 : Bool
  is_apo : Bool
  is_min : Bool
  is_minmax : Bool
  is_max : Bool
  deriving DecidableEq

/-! ## The parser -/

/-- `parse_digit`: the digit of a segment pattern, `-1` for any other byte. -/
def parse_digit (b : Nat) : Int :=
  if b = 0xeb then 0
  else if b = 0x0a then 1
  else if b = 0xad then 2
  else if b = 0x8f then 3
  else if b = 0x4e then 4
  else if b = 0xc7 then 5
  else if b = 0xe7 then 6
  else if b = 0x8a then 7
  else if b = 0xef then 8
  else if b = 0xcf then 9
  else -1

/-- `sync_nibbles_valid`: the loop over `i = 0 .. DTM0660_PACKET_SIZE - 1`
returns `FALSE` at the first byte whose high nibble is not `i + 1`, and `TRUE`
when it runs to the end. -/
def sync_nibbles_valid (buf : Frame) : Bool :=
  (List.finRange DTM0660_PACKET_SIZE).all fun i => (((buf i).val >>> 4) &&& 0x0f) == i.val + 1

/-- `flags_valid`. -/
def flags_valid (info : dtm0660_info) : Bool :=
  -- Does the packet have more than one multiplier?
  let count : Nat := 0
  let count := count + (if info.is_nano then 1 else 0)
  let count := count + (if info.is_micro then 1 else 0)
  let count := count + (if info.is_milli then 1 else 0)
  let count := count + (if info.is_kilo then 1 else 0)
  let count := count + (if info.is_mega then 1 else 0)
  if count > 1 then false
  else
    -- Does the packet "measure" more than one type of value?
    let count : Nat := 0
    let count := count + (if info.is_hz then 1 else 0)
    let count := count + (if info.is_ohm then 1 else 0)
    let count := count + (if info.is_farad then 1 else 0)
    let count := count + (if info.is_ampere then 1 else 0)
    let count := count + (if info.is_volt then 1 else 0)
    let count := count + (if info.is_percent then 1 else 0)
    if count > 1 then false
    -- Both AC and DC set?
    else if info.is_ac && info.is_dc then false
    -- RS232 flag not set?
    else if !info.is_rs232 then false
    else true

/-- The array `digit_bytes` of `parse_value`: entry `i` merges the low nibbles
of bytes `1 + 2i` and `2 + 2i` and clears bit 4.  Each store into the
`uint8_t` entry is taken modulo 256. -/
def digit_bytes (buf : Frame) (i : Fin 4) : Nat :=
  let b := (((buf ⟨1 + i.val * 2, by unfold DTM0660_PACKET_SIZE; omega⟩).val &&& 0x0f) <<< 4) % 256
  let b := (b ||| ((buf ⟨1 + i.val * 2 + 1, by unfold DTM0660_PACKET_SIZE; omega⟩).val &&& 0x0f)) % 256
  -- `~(1 << 4)` has all bits but bit 4 set
  (b &&& 0xef) % 256

/-- `parse_value`: the status and the value stored in `*result` (every path
stores one). -/
def parse_value (buf : Frame) : SrStatus × CFloat :=
  -- Byte 1 contains sign in bit 0
  let sign : Int := if ((buf 1).val &&& (1 <<< 0)) != 0 then -1 else 1
  -- Check for "OL".
  if digit_bytes buf 0 == 0x00 && digit_bytes buf 1 == 0xeb &&
      digit_bytes buf 2 == 0x61 && digit_bytes buf 3 == 0x00 then
    (SR_OK, CFloat.INFINITY)
  else
    -- Parse the digits.
    let digits : Fin 4 → Int := fun i => parse_digit (digit_bytes buf i)
    -- Merge all digits into an integer value.
    let intval : Int := (List.finRange 4).foldl (fun acc i => acc * 10 + digits i) 0
    let floatval := CFloat.ofInt intval
    -- Decimal point position.
    let floatval :=
      if ((buf 3).val &&& 0x01) != 0 then floatval.div (CFloat.ofInt 1000)
      else if ((buf 5).val &&& 0x01) != 0 then floatval.div (CFloat.ofInt 100)
      else if ((buf 7).val &&& 0x01) != 0 then floatval.div (CFloat.ofInt 10)
      else floatval
    -- Apply sign.
    let floatval := floatval.mul (CFloat.ofInt sign)
    (SR_OK, floatval)

/-- `parse_flags`: every field of `info` is assigned from its bit. -/
def parse_flags (buf : Frame) (info : dtm0660_info) : dtm0660_info :=
  { info with
    -- Byte 0: LCD SEG1
    is_ac := ((buf 0).val &&& (1 <<< 0)) != 0
    is_dc := ((buf 0).val &&& (1 <<< 1)) != 0
    is_auto := ((buf 0).val &&& (1 <<< 2)) != 0
    is_rs232 := ((buf 0).val &&& (1 <<< 3)) != 0
    -- Byte 1: LCD SEG2
    is_sign := ((buf 1).val &&& (1 <<< 0)) != 0
    -- Byte 9: LCD SEG10
    is_micro := ((buf 9).val &&& (1 <<< 0)) != 0
    is_nano := ((buf 9).val &&& (1 <<< 1)) != 0
    is_kilo := ((buf 9).val &&& (1 <<< 2)) != 0
    is_diode := ((buf 9).val &&& (1 <<< 3)) != 0
    -- Byte 10: LCD SEG11
    is_milli := ((buf 10).val &&& (1 <<< 0)) != 0
    is_percent := ((buf 10).val &&& (1 <<< 1)) != 0
    is_mega := ((buf 10).val &&& (1 <<< 2)) != 0
    is_beep := ((buf 10).val &&& (1 <<< 3)) != 0
    -- Byte 11: LCD SEG12
    is_farad := ((buf 11).val &&& (1 <<< 0)) != 0
    is_ohm := ((buf 11).val &&& (1 <<< 1)) != 0
    is_rel := ((buf 11).val &&& (1 <<< 2)) != 0
    is_hold := ((buf 11).val &&& (1 <<< 3)) != 0
    -- Byte 12: LCD SEG13
    is_ampere := ((buf 12).val &&& (1 <<< 0)) != 0
    is_volt := ((buf 12).val &&& (1 <<< 1)) != 0
    is_hz := ((buf 12).val &&& (1 <<< 2)) != 0
    is_bat := ((buf 12).val &&& (1 <<< 3)) != 0
    -- Byte 13: LCD SEG14
    is_degf := ((buf 13).val &&& (1 <<< 0)) != 0
    is_degc := ((buf 13).val &&& (1 <<< 1)) != 0
    is_c2c1_00 := ((buf 13).val &&& (1 <<< 2)) != 0
    is_c2c1_01 := ((buf 13).val &&& (1 <<< 3)) != 0
    -- Byte 14: LCD SEG15
    is_apo := ((buf 14).val &&& (1 <<< 0)) != 0
    is_min := ((buf 14).val &&& (1 <<< 1)) != 0
    is_minmax := ((buf 14).val &&& (1 <<< 2)) != 0
    is_max := ((buf 14).val &&& (1 <<< 3)) != 0 }

/-- `handle_flags`: scales `*floatval` and fills `analog` from the flags. -/
def handle_flags (analog : sr_datafeed_analog_old) (floatval : CFloat)
    (info : dtm0660_info) : sr_datafeed_analog_old × CFloat :=
  -- Factors
  let floatval : CFloat := if info.is_nano then floatval.div (CFloat.ofInt 1000000000) else floatval
  let floatval : CFloat := if info.is_micro then floatval.div (CFloat.ofInt 1000000) else floatval
  let floatval : CFloat := if info.is_milli then floatval.div (CFloat.ofInt 1000) else floatval
  let floatval : CFloat := if info.is_kilo then floatval.mul (CFloat.ofInt 1000) else floatval
  let floatval : CFloat := if info.is_mega then floatval.mul (CFloat.ofInt 1000000) else floatval
  -- Measurement modes
  let analog : sr_datafeed_analog_old := if info.is_volt then
    { analog with mq := SR_MQ_VOLTAGE, unit := SR_UNIT_VOLT } else analog
  let analog : sr_datafeed_analog_old := if info.is_ampere then
    { analog with mq := SR_MQ_CURRENT, unit := SR_UNIT_AMPERE } else analog
  let analog : sr_datafeed_analog_old := if info.is_ohm then
    { analog with mq := SR_MQ_RESISTANCE, unit := SR_UNIT_OHM } else analog
  let analog : sr_datafeed_analog_old := if info.is_hz then
    { analog with mq := SR_MQ_FREQUENCY, unit := SR_UNIT_HERTZ } else analog
  let analog : sr_datafeed_analog_old := if info.is_farad then
    { analog with mq := SR_MQ_CAPACITANCE, unit := SR_UNIT_FARAD } else analog
  let analog : sr_datafeed_analog_old := if info.is_beep then
    { analog with mq := SR_MQ_CONTINUITY, unit := SR_UNIT_BOOLEAN } else analog
  let floatval : CFloat := if info.is_beep then
    (if floatval.eq CFloat.INFINITY then CFloat.ofInt 0 else CFloat.ofInt 1) else floatval
  let analog : sr_datafeed_analog_old := if info.is_diode then
    { analog with mq := SR_MQ_VOLTAGE, unit := SR_UNIT_VOLT } else analog
  let analog : sr_datafeed_analog_old := if info.is_percent then
    { analog with mq := SR_MQ_DUTY_CYCLE, unit := SR_UNIT_PERCENTAGE } else analog
  let analog : sr_datafeed_analog_old := if info.is_degc then
    { analog with mq := SR_MQ_TEMPERATURE, unit := SR_UNIT_CELSIUS } else analog
  let analog : sr_datafeed_analog_old := if info.is_degf then
    { analog with mq := SR_MQ_TEMPERATURE, unit := SR_UNIT_FAHRENHEIT } else analog
  -- Measurement related flags
  let analog : sr_datafeed_analog_old := if info.is_ac then
    { analog with mqflags := insert SR_MQFLAG_AC analog.mqflags } else analog
  let analog : sr_datafeed_analog_old := if info.is_dc then
    { analog with mqflags := insert SR_MQFLAG_DC analog.mqflags } else analog
  let analog : sr_datafeed_analog_old := if info.is_auto then
    { analog with mqflags := insert SR_MQFLAG_AUTORANGE analog.mqflags } else analog
  let analog : sr_datafeed_analog_old := if info.is_diode then
    { analog with mqflags := insert SR_MQFLAG_DIODE analog.mqflags } else analog
  let analog : sr_datafeed_analog_old := if info.is_hold then
    { analog with mqflags := insert SR_MQFLAG_HOLD analog.mqflags } else analog
  let analog : sr_datafeed_analog_old := if info.is_rel then
    { analog with mqflags := insert SR_MQFLAG_RELATIVE analog.mqflags } else analog
  let analog : sr_datafeed_analog_old := if info.is_min then
    { analog with mqflags := insert SR_MQFLAG_MIN analog.mqflags } else analog
  let analog : sr_datafeed_analog_old := if info.is_max then
    { analog with mqflags := insert SR_MQFLAG_MAX analog.mqflags } else analog
  (analog, floatval)

/-- `sr_dtm0660_packet_valid`.  The local `struct dtm0660_info info` is not
initialised in C: its content before `parse_flags` is the parameter `info`. -/
def sr_dtm0660_packet_valid (buf : Frame) (info : dtm0660_info) : Bool :=
  let info := parse_flags buf info
  sync_nibbles_valid buf && flags_valid info

set_option linter.unusedVariables false in
/-- `sr_dtm0660_parse`: the status and the contents of `*floatval`, `*analog`
and `*info` on return. -/
def sr_dtm0660_parse (buf : Frame) (floatval : CFloat)
    (analog : sr_datafeed_analog_old) (info : dtm0660_info) :
    SrStatus × CFloat × sr_datafeed_analog_old × dtm0660_info :=
  let (ret, floatval) := parse_value buf
  if ret != SR_OK then (ret, floatval, analog, info)
  else
    let info_local := parse_flags buf info
    let (analog, floatval) := handle_flags analog floatval info_local
    (SR_OK, floatval, analog, info_local)

/-! ## Vocabulary of the specification -/

/-- Sync value of byte `i` of a frame: its high nibble. -/
def sync_nibble (buf : Frame) (i : Fin DTM0660_PACKET_SIZE) : Nat := (buf i).val / 16

/-- The frame `buf` with the high nibble of byte `i` replaced by `v`; the low
nibble of byte `i` and all other bytes are kept. -/
def set_sync_nibble (buf : Frame) (i : Fin DTM0660_PACKET_SIZE) (v : Fin 16) : Frame :=
  Function.update buf i ⟨16 * v.val + (buf i).val % 16, by omega⟩

/-- Spec 4.2, the segment-pattern table: digit code and the digit it shows. -/
def spec_digit_table : List (Nat × Nat) :=
  [(0xEB, 0), (0x0A, 1), (0xAD, 2), (0x8F, 3), (0x4E, 4),
   (0xC7, 5), (0xE7, 6), (0x8A, 7), (0xEF, 8), (0xCF, 9)]

/-- Spec 4.3, the digit code `i`: the low nibble of byte `1 + 2i` (upper) merged
with the low nibble of byte `2 + 2i` (lower) into an 8-bit code, with bit 4
cleared. -/
def spec_digit_code (buf : Frame) (i : Fin 4) : Nat :=
  let merged := 16 * ((buf ⟨1 + 2 * i.val, by unfold DTM0660_PACKET_SIZE; omega⟩).val % 16) +
    (buf ⟨2 + 2 * i.val, by unfold DTM0660_PACKET_SIZE; omega⟩).val % 16
  if merged.testBit 4 then merged - 16 else merged

/-- The four digit codes of a frame, most significant digit first. -/
def spec_digit_codes (buf : Frame) : List Nat :=
  [spec_digit_code buf 0, spec_digit_code buf 1, spec_digit_code buf 2, spec_digit_code buf 3]

/-- Spec 4.3, the over-range sentinel: the digit codes of the "OL" display. -/
def spec_over_range : List Nat := [0x00, 0xEB, 0x61, 0x00]

/-- Spec 4.4, the wire-format table: each flag is one bit of one byte. -/
def spec_flags (buf : Frame) : dtm0660_info where
  is_ac := (buf 0).val.testBit 0
  is_dc := (buf 0).val.testBit 1
  is_auto := (buf 0).val.testBit 2
  is_rs232 := (buf 0).val.testBit 3
  is_sign := (buf 1).val.testBit 0
  is_micro := (buf 9).val.testBit 0
  is_nano := (buf 9).val.testBit 1
  is_kilo := (buf 9).val.testBit 2
  is_diode := (buf 9).val.testBit 3
  is_milli := (buf 10).val.testBit 0
  is_percent := (buf 10).val.testBit 1
  is_mega := (buf 10).val.testBit 2
  is_beep := (buf 10).val.testBit 3
  is_farad := (buf 11).val.testBit 0
  is_ohm := (buf 11).val.testBit 1
  is_rel := (buf 11).val.testBit 2
  is_hold := (buf 11).val.testBit 3
  is_ampere := (buf 12).val.testBit 0
  is_volt := (buf 12).val.testBit 1
  is_hz := (buf 12).val.testBit 2
  is_bat := (buf 12).val.testBit 3
  is_degf := (buf 13).val.testBit 0
  is_degc := (buf 13).val.testBit 1
  is_c2c1_00 := (buf 13).val.testBit 2
  is_c2c1_01 := (buf 13).val.testBit 3
  is_apo := (buf 14).val.testBit 0
  is_min := (buf 14).val.testBit 1
  is_minmax := (buf 14).val.testBit 2
  is_max := (buf 14).val.testBit 3

/-- Spec 3, the ten measured-quantity indicators of a frame: volt, ampere, ohm,
hertz, farad, diode, percent, beep/continuity, celsius, fahrenheit. -/
def spec_quantity_flags (buf : Frame) : List Bool :=
  [(spec_flags buf).is_volt, (spec_flags buf).is_ampere, (spec_flags buf).is_ohm,
   (spec_flags buf).is_hz, (spec_flags buf).is_farad, (spec_flags buf).is_diode,
   (spec_flags buf).is_percent, (spec_flags buf).is_beep, (spec_flags buf).is_degc,
   (spec_flags buf).is_degf]

/-- Spec 4.6, the fixed evaluation order of the quantity flags, each with the
quantity and unit it stands for. -/
def spec_quantity_order (f : dtm0660_info) : List (Bool × sr_mq × sr_unit) :=
  [(f.is_volt, SR_MQ_VOLTAGE, SR_UNIT_VOLT),
   (f.is_ampere, SR_MQ_CURRENT, SR_UNIT_AMPERE),
   (f.is_ohm, SR_MQ_RESISTANCE, SR_UNIT_OHM),
   (f.is_hz, SR_MQ_FREQUENCY, SR_UNIT_HERTZ),
   (f.is_farad, SR_MQ_CAPACITANCE, SR_UNIT_FARAD),
   (f.is_beep, SR_MQ_CONTINUITY, SR_UNIT_BOOLEAN),
   (f.is_diode, SR_MQ_VOLTAGE, SR_UNIT_VOLT),
   (f.is_percent, SR_MQ_DUTY_CYCLE, SR_UNIT_PERCENTAGE),
   (f.is_degc, SR_MQ_TEMPERATURE, SR_UNIT_CELSIUS),
   (f.is_degf, SR_MQ_TEMPERATURE, SR_UNIT_FAHRENHEIT)]

/-- Spec 4.6, the annunciator-only bits as (byte, bit): low-battery, the two
user-defined symbols, auto-power-off, min-max mode and the RS232 marker. -/
def spec_annunciator_bits : List (Fin DTM0660_PACKET_SIZE × Fin 8) :=
  [(12, 3), (13, 2), (13, 3), (14, 0), (14, 2), (0, 3)]

/-! ## Concrete frames and output records -/

/-- A flag record with every flag clear. -/
def info_clear : dtm0660_info :=
  ⟨false, false, false, false, false, false, false, false, false, false,
   false, false, false, false, false, false, false, false, false, false,
   false, false, false, false, false, false, false, false, false⟩

/-- An output record the parser has not written yet. -/
def analog_clear : sr_datafeed_analog_old := ⟨sr_mq.other 0, sr_unit.other 0, ∅⟩

/-- Display `123.4`, volt, DC, auto-range. -/
def frame_123_4 : Frame :=
  ![0x1E, 0x20, 0x3A, 0x4A, 0x5D, 0x68, 0x7F, 0x85, 0x9E, 0xA0, 0xB0, 0xC0, 0xD2, 0xE0, 0xF0]

/-- Display `-0001`, volt, DC. -/
def frame_neg_1 : Frame :=
  ![0x1A, 0x2F, 0x3B, 0x4E, 0x5B, 0x6E, 0x7B, 0x80, 0x9A, 0xA0, 0xB0, 0xC0, 0xD2, 0xE0, 0xF0]

/-- Display `0L` (over range), mega-ohm, auto-range, sign segment off. -/
def frame_over_range : Frame :=
  ![0x1C, 0x20, 0x30, 0x4E, 0x5B, 0x66, 0x71, 0x80, 0x90, 0xA0, 0xB4, 0xC2, 0xD0, 0xE0, 0xF0]

/-- Display `-0L`: the over-range frame with the sign segment on. -/
def frame_over_range_neg : Frame :=
  ![0x1C, 0x21, 0x30, 0x4E, 0x5B, 0x66, 0x71, 0x80, 0x90, 0xA0, 0xB4, 0xC2, 0xD0, 0xE0, 0xF0]

/-- Display ` 234` with the leading digit blank (all its segments off), volt, DC. -/
def frame_blank_digit : Frame :=
  ![0x1A, 0x20, 0x30, 0x4A, 0x5D, 0x68, 0x7F, 0x84, 0x9E, 0xA0, 0xB0, 0xC0, 0xD2, 0xE0, 0xF0]

/-- The frame `frame_123_4` with the AC flag set next to the DC flag. -/
def frame_ac_dc : Frame :=
  ![0x1F, 0x20, 0x3A, 0x4A, 0x5D, 0x68, 0x7F, 0x85, 0x9E, 0xA0, 0xB0, 0xC0, 0xD2, 0xE0, 0xF0]

/-- Display `123.4` with the volt and the diode indicators both on. -/
def frame_volt_diode : Frame :=
  ![0x18, 0x20, 0x3A, 0x4A, 0x5D, 0x68, 0x7F, 0x85, 0x9E, 0xA8, 0xB0, 0xC0, 0xD2, 0xE0, 0xF0]

/-- Display `123.4` with the celsius and the fahrenheit indicators both on. -/
def frame_degc_degf : Frame :=
  ![0x18, 0x20, 0x3A, 0x4A, 0x5D, 0x68, 0x7F, 0x85, 0x9E, 0xA0, 0xB0, 0xC0, 0xD0, 0xE3, 0xF0]

/-- A flag record with only the kilo multiplier set. -/
def info_kilo : dtm0660_info := { info_clear with is_kilo := true }

/-- A flag record with only the nano multiplier set. -/
def info_nano : dtm0660_info := { info_clear with is_nano := true }

/-- A flag record with only the mega multiplier set. -/
def info_mega : dtm0660_info := { info_clear with is_mega := true }

/-- A flag record with the ohm and the beep/continuity flags set. -/
def info_ohm_beep : dtm0660_info := { info_clear with is_ohm := true, is_beep := true }

/-- Continuity test on an open circuit: display `0L`, ohm and beep indicators. -/
def frame_beep_open : Frame :=
  ![0x18, 0x20, 0x30, 0x4E, 0x5B, 0x66, 0x71, 0x80, 0x90, 0xA0, 0xB8, 0xC2, 0xD0, 0xE0, 0xF0]

/-- Continuity test on a closed circuit: display `000.3`, ohm and beep
indicators. -/
def frame_beep_closed : Frame :=
  ![0x18, 0x2E, 0x3B, 0x4E, 0x5B, 0x6E, 0x7B, 0x89, 0x9F, 0xA0, 0xB8, 0xC2, 0xD0, 0xE0, 0xF0]

/-- Display `123.4` with no quantity indicator on. -/
def frame_no_quantity : Frame :=
  ![0x18, 0x20, 0x3A, 0x4A, 0x5D, 0x68, 0x7F, 0x85, 0x9E, 0xA0, 0xB0, 0xC0, 0xD0, 0xE0, 0xF0]

/-- The frame `frame_123_4` with every annunciator-only bit flipped: RS232
marker off, low-battery, both user symbols, auto-power-off and min-max on. -/
def frame_123_4_annunciators : Frame :=
  ![0x16, 0x20, 0x3A, 0x4A, 0x5D, 0x68, 0x7F, 0x85, 0x9E, 0xA0, 0xB0, 0xC0, 0xDA, 0xEC, 0xF5]

/-- The low nibbles of `frame_123_4` under high nibbles that are all zero. -/
def frame_123_4_unsynced : Frame :=
  ![0x0E, 0x00, 0x0A, 0x0A, 0x0D, 0x08, 0x0F, 0x05, 0x0E, 0x00, 0x00, 0x00, 0x02, 0x00, 0x00]

/-! ## Byte-level facts -/

set_option maxRecDepth 100000

theorem testBit_of_mask (b : Fin 256) :
    (((b.val &&& (1 <<< 0)) != 0) = b.val.testBit 0) ∧
    (((b.val &&& (1 <<< 1)) != 0) = b.val.testBit 1) ∧
    (((b.val &&& (1 <<< 2)) != 0) = b.val.testBit 2) ∧
    (((b.val &&& (1 <<< 3)) != 0) = b.val.testBit 3) := by
  revert b; decide

theorem mask_one (b : Fin 256) : ((b.val &&& 0x01) != 0) = b.val.testBit 0 :=
  (testBit_of_mask b).1

theorem shift_mask_eq_div (b : Fin 256) : ((b.val >>> 4) &&& 0x0f) = b.val / 16 := by
  revert b; decide

theorem mask_eq_mod (b : Fin 256) : (b.val &&& 0x0f) = b.val % 16 := by
  revert b; decide

theorem merge_nibbles (h l : Fin 16) :
    ((((h.val <<< 4) % 256 ||| l.val) % 256) &&& 0xef) % 256 =
      if (16 * h.val + l.val).testBit 4 then 16 * h.val + l.val - 16
      else 16 * h.val + l.val := by
  revert h l; decide

theorem merge_bytes (a b : Fin 256) :
    (((((a.val &&& 0x0f) <<< 4) % 256 ||| (b.val &&& 0x0f)) % 256) &&& 0xef) % 256 =
      if (16 * (a.val % 16) + b.val % 16).testBit 4 then 16 * (a.val % 16) + b.val % 16 - 16
      else 16 * (a.val % 16) + b.val % 16 := by
  rw [mask_eq_mod, mask_eq_mod]
  exact merge_nibbles ⟨a.val % 16, Nat.mod_lt _ (by decide)⟩ ⟨b.val % 16, Nat.mod_lt _ (by decide)⟩

theorem finRange_four : List.finRange 4 = [0, 1, 2, 3] := by decide

/-! ## Rounding to binary32 -/

theorem roundHalfEven_intCast (k : ℤ) : roundHalfEven (k : ℚ) = k := by
  simp [roundHalfEven]

theorem roundHalfEven_eq (y : ℚ) (m : ℤ) (h : |y - m| < 1 / 2) : roundHalfEven y = m := by
  rw [abs_lt] at h
  unfold roundHalfEven
  have hf1 : (⌊y⌋ : ℚ) ≤ y := Int.floor_le y
  have hf2 : y < ⌊y⌋ + 1 := Int.lt_floor_add_one y
  by_cases hm : (m : ℚ) ≤ y
  · have : ⌊y⌋ = m := by
      rw [Int.floor_eq_iff]
      exact ⟨hm, by linarith [h.2]⟩
    rw [this, if_pos (by linarith [h.2])]
  · push_neg at hm
    have : ⌊y⌋ = m - 1 := by
      rw [Int.floor_eq_iff]
      push_cast
      exact ⟨by linarith [h.1], by linarith⟩
    rw [this]
    push_cast
    rw [if_neg (by linarith [h.1]), if_pos (by linarith [h.1])]
    ring

theorem roundHalfEven_bounds (y : ℚ) (k : ℤ) (h1 : -(k : ℚ) ≤ y) (h2 : y ≤ k) :
    -k ≤ roundHalfEven y ∧ roundHalfEven y ≤ k := by
  have hf1 : (⌊y⌋ : ℚ) ≤ y := Int.floor_le y
  have lo : -k ≤ ⌊y⌋ := by
    rw [Int.le_floor]; push_cast; exact h1
  have hi : ⌊y⌋ ≤ k := by exact_mod_cast hf1.trans h2
  unfold roundHalfEven
  have up : ¬ (y - ⌊y⌋ < 1 / 2) → ⌊y⌋ + 1 ≤ k := by
    intro hn
    have : (⌊y⌋ : ℚ) < k := by linarith
    have : ⌊y⌋ < k := by exact_mod_cast this
    omega
  split_ifs with a b c
  · exact ⟨lo, hi⟩
  · exact ⟨by omega, up a⟩
  · exact ⟨lo, hi⟩
  · exact ⟨by omega, up a⟩


theorem log_two_eq (x : ℚ) (l : ℤ) (h1 : (2 : ℚ) ^ l ≤ |x|) (h2 : |x| < 2 ^ (l + 1)) :
    Int.log 2 |x| = l := by
  have hpos : 0 < |x| := lt_of_lt_of_le (by positivity) h1
  have a : l ≤ Int.log 2 |x| := by
    rw [← Int.zpow_le_iff_le_log (by decide) hpos]
    simpa using h1
  have b : Int.log 2 |x| < l + 1 := by
    rw [← Int.lt_zpow_iff_log_lt (by decide) hpos]
    simpa using h2
  omega

theorem zpow_log_two_le (x : ℚ) (hx : x ≠ 0) : (2 : ℚ) ^ Int.log 2 |x| ≤ |x| := by
  simpa using Int.zpow_log_le_self (b := 2) (by decide) (abs_pos.2 hx)

theorem lt_zpow_log_two_succ (x : ℚ) : |x| < (2 : ℚ) ^ (Int.log 2 |x| + 1) := by
  simpa using Int.lt_zpow_succ_log_self (b := 2) (by decide) |x|

/-- Unfolding of `CFloat.round` once exponent and rounded significand are known. -/
theorem CFloat.round_of (x : ℚ) (e m : ℤ) (hx : x ≠ 0)
    (he : max (Int.log 2 |x|) (-126) = e) (hm : roundHalfEven (x / 2 ^ (e - 23)) = m)
    (hfin : |(m : ℚ) * 2 ^ (e - 23)| < 2 ^ 128) :
    CFloat.round x = CFloat.fin (m * 2 ^ (e - 23)) := by
  unfold CFloat.round
  rw [if_neg hx, he, hm, if_neg (not_le.2 hfin)]

/-- Evaluation of `CFloat.round` in the normal range: `x` lies in the binade of
`2 ^ l` and `m` is the integer nearest to `x / 2 ^ (l - 23)`. -/
theorem CFloat.round_eval (x : ℚ) (l m : ℤ) (h1 : (2 : ℚ) ^ l ≤ |x|)
    (h2 : |x| < 2 ^ (l + 1)) (hl : -126 ≤ l) (hm : |x / 2 ^ (l - 23) - m| < 1 / 2)
    (hfin : |(m : ℚ) * 2 ^ (l - 23)| < 2 ^ 128) :
    CFloat.round x = CFloat.fin (m * 2 ^ (l - 23)) := by
  have hx : x ≠ 0 := by
    intro h0
    rw [h0, abs_zero] at h1
    exact absurd h1 (not_le.2 (by positivity))
  refine CFloat.round_of x l m hx ?_ (roundHalfEven_eq _ _ hm) hfin
  rw [log_two_eq x l h1 h2]
  exact max_eq_left hl

/-- A number of the format, `m * 2 ^ t` with `|m| < 2 ^ 24`, `-149 ≤ t` and
magnitude below `2 ^ 128`, is not changed by rounding. -/
theorem CFloat.round_exact (m t : ℤ) (hm : |m| < 2 ^ 24) (ht : -149 ≤ t)
    (hfin : |(m : ℚ) * 2 ^ t| < 2 ^ 128) :
    CFloat.round (m * 2 ^ t) = CFloat.fin (m * 2 ^ t) := by
  by_cases hm0 : m = 0
  · simp [hm0, CFloat.round]
  have hx : (m : ℚ) * 2 ^ t ≠ 0 := by
    apply mul_ne_zero
    · exact_mod_cast hm0
    · positivity
  obtain ⟨e, he⟩ : ∃ e, max (Int.log 2 |(m : ℚ) * 2 ^ t|) (-126) = e := ⟨_, rfl⟩
  have hle : e - 23 ≤ t := by
    by_contra hcon
    push_neg at hcon
    have hlog : Int.log 2 |(m : ℚ) * 2 ^ t| = e := by
      rcases max_cases (Int.log 2 |(m : ℚ) * 2 ^ t|) (-126) with ⟨h, _⟩ | ⟨h, _⟩
      · rw [← he, h]
      · omega
    have h1 := zpow_log_two_le _ hx
    rw [hlog, abs_mul, abs_of_pos (show (0 : ℚ) < 2 ^ t by positivity)] at h1
    have hmq : |(m : ℚ)| < 2 ^ 24 := by exact_mod_cast hm
    have h2 : |(m : ℚ)| * 2 ^ t < 2 ^ (24 + t) := by
      rw [zpow_add₀ (by norm_num : (2 : ℚ) ≠ 0)]
      have e24 : (2 : ℚ) ^ (24 : ℤ) = 2 ^ (24 : ℕ) := by norm_num
      rw [e24]
      exact mul_lt_mul_of_pos_right hmq (by positivity)
    have h3 : (2 : ℚ) ^ e < 2 ^ (24 + t) := lt_of_le_of_lt h1 h2
    have := (zpow_lt_zpow_iff_right₀ (by norm_num : (1 : ℚ) < 2)).1 h3
    omega
  obtain ⟨d, hd⟩ : ∃ d : ℕ, t = e - 23 + d := ⟨(t - (e - 23)).toNat, by omega⟩
  have hq : (m : ℚ) * 2 ^ t / 2 ^ (e - 23) = ((m * 2 ^ d : ℤ) : ℚ) := by
    rw [hd, zpow_add₀ (by norm_num : (2 : ℚ) ≠ 0)]
    push_cast
    rw [zpow_natCast]
    field_simp
    ring
  have key := CFloat.round_of _ e (m * 2 ^ d) hx he (by rw [hq, roundHalfEven_intCast]) (by
    have : ((m * 2 ^ d : ℤ) : ℚ) * 2 ^ (e - 23) = (m : ℚ) * 2 ^ t := by
      rw [← hq]; field_simp
    rw [this]; exact hfin)
  rw [key]
  congr 1
  rw [← hq]; field_simp


/-- Rounding does not leave an interval `[-2 ^ k, 2 ^ k]` with `k ≤ 127`: the
result is finite and within the same bound. -/
theorem CFloat.round_bound (x : ℚ) (k : ℕ) (hk : k ≤ 127) (hx : |x| ≤ 2 ^ k) :
    ∃ q : ℚ, CFloat.round x = CFloat.fin q ∧ |q| ≤ 2 ^ k := by
  by_cases hx0 : x = 0
  · exact ⟨0, by simp [hx0, CFloat.round], by simp⟩
  obtain ⟨e, he⟩ : ∃ e, max (Int.log 2 |x|) (-126) = e := ⟨_, rfl⟩
  have hlog : Int.log 2 |x| ≤ k := by
    have h1 := zpow_log_two_le x hx0
    have h2 : (2 : ℚ) ^ Int.log 2 |x| ≤ 2 ^ (k : ℤ) := by
      rw [zpow_natCast]; exact h1.trans hx
    exact (zpow_le_zpow_iff_right₀ (by norm_num : (1 : ℚ) < 2)).1 h2
  have hek : e ≤ k := by
    rw [← he]; exact max_le hlog (by omega)
  obtain ⟨d, hd⟩ : ∃ d : ℕ, (k : ℤ) = e - 23 + d := ⟨((k : ℤ) - (e - 23)).toNat, by omega⟩
  have hpow : (2 : ℚ) ^ k = ((2 ^ d : ℤ) : ℚ) * 2 ^ (e - 23) := by
    rw [← zpow_natCast, hd, zpow_add₀ (by norm_num : (2 : ℚ) ≠ 0), zpow_natCast]
    push_cast
    ring
  have hu : (0 : ℚ) < 2 ^ (e - 23) := by positivity
  rw [abs_le] at hx
  have hb := roundHalfEven_bounds (x / 2 ^ (e - 23)) (2 ^ d)
    (by rw [le_div_iff₀ hu]; linarith [hx.1])
    (by rw [div_le_iff₀ hu]; linarith [hx.2])
  have hb1 : -((2 ^ d : ℤ) : ℚ) ≤ (roundHalfEven (x / 2 ^ (e - 23)) : ℚ) := by
    exact_mod_cast hb.1
  have hb2 : (roundHalfEven (x / 2 ^ (e - 23)) : ℚ) ≤ ((2 ^ d : ℤ) : ℚ) := by
    exact_mod_cast hb.2
  have hq : |(roundHalfEven (x / 2 ^ (e - 23)) : ℚ) * 2 ^ (e - 23)| ≤ 2 ^ k := by
    rw [abs_le, hpow]
    constructor
    · nlinarith
    · nlinarith
  have hlt : (2 : ℚ) ^ k < 2 ^ 128 :=
    pow_lt_pow_right₀ (by norm_num) (by omega)
  exact ⟨_, CFloat.round_of x e _ hx0 he rfl (lt_of_le_of_lt hq hlt), hq⟩


/-- Every finite result of `CFloat.round` is a number of the format. -/
theorem CFloat.round_repr (x q : ℚ) (h : CFloat.round x = CFloat.fin q) :
    ∃ m t : ℤ, |m| < 2 ^ 24 ∧ -149 ≤ t ∧ q = m * 2 ^ t ∧ |(m : ℚ) * 2 ^ t| < 2 ^ 128 := by
  by_cases hx0 : x = 0
  · refine ⟨0, 0, by norm_num, by norm_num, ?_, by norm_num⟩
    simp only [hx0, CFloat.round, if_true, CFloat.fin.injEq] at h
    simp [← h]
  obtain ⟨e, he⟩ : ∃ e, max (Int.log 2 |x|) (-126) = e := ⟨_, rfl⟩
  unfold CFloat.round at h
  rw [if_neg hx0, he] at h
  obtain ⟨M, hM⟩ : ∃ M, roundHalfEven (x / 2 ^ (e - 23)) = M := ⟨_, rfl⟩
  rw [hM] at h
  have he126 : -126 ≤ e := by rw [← he]; exact le_max_right _ _
  have hloge : Int.log 2 |x| ≤ e := by rw [← he]; exact le_max_left _ _
  have hu : (0 : ℚ) < 2 ^ (e - 23) := by positivity
  by_cases hov : (2 : ℚ) ^ 128 ≤ |(M : ℚ) * 2 ^ (e - 23)|
  · rw [if_pos hov] at h
    split_ifs at h
  rw [if_neg hov] at h
  simp only [CFloat.fin.injEq] at h
  push_neg at hov
  have hxlt : |x| < 2 ^ 24 * 2 ^ (e - 23) := by
    have h1 := lt_zpow_log_two_succ x
    have h2 : (2 : ℚ) ^ (Int.log 2 |x| + 1) ≤ 2 ^ (e + 1) :=
      (zpow_le_zpow_iff_right₀ (by norm_num : (1 : ℚ) < 2)).2 (by omega)
    have h3 : (2 : ℚ) ^ (e + 1) = 2 ^ 24 * 2 ^ (e - 23) := by
      rw [show e + 1 = 24 + (e - 23) by ring, zpow_add₀ (by norm_num : (2 : ℚ) ≠ 0)]
      norm_num
    linarith
  rw [abs_lt] at hxlt
  have hb := roundHalfEven_bounds (x / 2 ^ (e - 23)) (2 ^ 24)
    (by rw [le_div_iff₀ hu]; push_cast; linarith [hxlt.1])
    (by rw [div_le_iff₀ hu]; push_cast; linarith [hxlt.2])
  rw [hM] at hb
  by_cases hlt : |M| < 2 ^ 24
  · exact ⟨M, e - 23, hlt, by omega, h.symm, hov⟩
  · have hM2 : M = 2 ^ 24 ∨ M = -2 ^ 24 := by
      rw [abs_lt] at hlt
      push_neg at hlt
      by_cases hc : -2 ^ 24 < M
      · left; have := hlt hc; omega
      · right; omega
    have hz : (2 : ℚ) ^ (e - 22) = 2 * 2 ^ (e - 23) := by
      rw [show e - 22 = 1 + (e - 23) by ring, zpow_add₀ (by norm_num : (2 : ℚ) ≠ 0)]
      norm_num
    rcases hM2 with hM2 | hM2
    · refine ⟨2 ^ 23, e - 22, by norm_num, by omega, ?_, ?_⟩
      · rw [← h, hM2, hz]; push_cast; ring
      · rw [hM2] at hov
        rw [hz]
        have : ((2 ^ 23 : ℤ) : ℚ) * (2 * 2 ^ (e - 23)) = ((2 ^ 24 : ℤ) : ℚ) * 2 ^ (e - 23) := by
          push_cast; ring
        rw [this]; exact hov
    · refine ⟨-2 ^ 23, e - 22, by norm_num, by omega, ?_, ?_⟩
      · rw [← h, hM2, hz]; push_cast; ring
      · rw [hM2] at hov
        rw [hz]
        have : ((-2 ^ 23 : ℤ) : ℚ) * (2 * 2 ^ (e - 23)) =
            ((-2 ^ 24 : ℤ) : ℚ) * 2 ^ (e - 23) := by
          push_cast; ring
        rw [this]; exact hov

/-- A finite result of `CFloat.round` is left unchanged by a second rounding,
and so is its negation. -/
theorem CFloat.round_idem (x q : ℚ) (h : CFloat.round x = CFloat.fin q) :
    CFloat.round q = CFloat.fin q ∧ CFloat.round (-q) = CFloat.fin (-q) := by
  obtain ⟨m, t, hm, ht, hq, hfin⟩ := CFloat.round_repr x q h
  refine ⟨?_, ?_⟩
  · rw [hq]; exact CFloat.round_exact m t hm ht hfin
  · have hneg : -q = ((-m : ℤ) : ℚ) * 2 ^ t := by rw [hq]; push_cast; ring
    rw [hneg]
    refine CFloat.round_exact (-m) t (by rwa [abs_neg]) ht ?_
    rw [show ((-m : ℤ) : ℚ) * 2 ^ t = -((m : ℚ) * 2 ^ t) by push_cast; ring, abs_neg]
    exact hfin

/-- Conversion of an integer below `2 ^ 24` in magnitude is exact. -/
theorem CFloat.ofInt_exact (n : ℤ) (h : |n| < 2 ^ 24) : CFloat.ofInt n = CFloat.fin n := by
  have hq : |(n : ℚ)| < 2 ^ 24 := by exact_mod_cast h
  have := CFloat.round_exact n 0 h (by norm_num)
    (by rw [zpow_zero, mul_one]; exact hq.trans (by norm_num))
  rw [zpow_zero, mul_one] at this
  exact this

/-- The constant `1000000000` is a number of the format. -/
theorem CFloat.ofInt_nano : CFloat.ofInt 1000000000 = CFloat.fin 1000000000 := by
  have := CFloat.round_exact 1953125 9 (by norm_num) (by norm_num) (by norm_num)
  unfold CFloat.ofInt
  norm_num at this ⊢
  exact this

theorem CFloat.div_fin (a b : ℚ) (hb : b ≠ 0) :
    (CFloat.fin a).div (CFloat.fin b) = CFloat.round (a / b) := by
  simp only [CFloat.div, if_neg hb]

theorem CFloat.mul_fin (a b : ℚ) : (CFloat.fin a).mul (CFloat.fin b) = CFloat.round (a * b) :=
  rfl

theorem roundHalfEven_floor_le (y : ℚ) : ⌊y⌋ ≤ roundHalfEven y := by
  unfold roundHalfEven
  split_ifs <;> omega

/-- An exact result of `2 ^ 128` or more rounds to positive infinity. -/
theorem CFloat.round_overflow (x : ℚ) (hx : (2 : ℚ) ^ 128 ≤ x) : CFloat.round x = CFloat.pinf := by
  have hpos : 0 < x := lt_of_lt_of_le (by positivity) hx
  have hx0 : x ≠ 0 := ne_of_gt hpos
  have habs : |x| = x := abs_of_pos hpos
  have hlog : (128 : ℤ) ≤ Int.log 2 |x| := by
    rw [← Int.zpow_le_iff_le_log (by decide) (abs_pos.2 hx0), habs]
    have e128 : (((2 : ℕ) : ℚ)) ^ (128 : ℤ) = 2 ^ (128 : ℕ) := by norm_num
    rw [e128]; exact hx
  obtain ⟨e, he⟩ : ∃ e, Int.log 2 |x| = e := ⟨_, rfl⟩
  have hmax : max (Int.log 2 |x|) (-126) = e := by rw [he]; exact max_eq_left (by omega)
  have hle := zpow_log_two_le x hx0
  rw [he, habs] at hle
  have hu : (0 : ℚ) < 2 ^ (e - 23) := by positivity
  have h23 : ((2 ^ 23 : ℤ) : ℚ) ≤ x / 2 ^ (e - 23) := by
    rw [le_div_iff₀ hu]
    have : ((2 ^ 23 : ℤ) : ℚ) * 2 ^ (e - 23) = 2 ^ e := by
      rw [show e = 23 + (e - 23) by ring, zpow_add₀ (by norm_num : (2 : ℚ) ≠ 0)]
      norm_num
    rw [this]; exact hle
  have hm : (2 ^ 23 : ℤ) ≤ roundHalfEven (x / 2 ^ (e - 23)) :=
    (Int.le_floor.2 h23).trans (roundHalfEven_floor_le _)
  have hmq : ((2 ^ 23 : ℤ) : ℚ) ≤ (roundHalfEven (x / 2 ^ (e - 23)) : ℚ) := by exact_mod_cast hm
  have hbig : (2 : ℚ) ^ 128 ≤
      |(roundHalfEven (x / 2 ^ (e - 23)) : ℚ) * 2 ^ (e - 23)| := by
    have h128 : (2 : ℚ) ^ 128 ≤ 2 ^ e := by
      rw [← zpow_natCast]
      exact (zpow_le_zpow_iff_right₀ (by norm_num : (1 : ℚ) < 2)).2 (by omega)
    have : (2 : ℚ) ^ e = ((2 ^ 23 : ℤ) : ℚ) * 2 ^ (e - 23) := by
      rw [show e = 23 + (e - 23) by ring, zpow_add₀ (by norm_num : (2 : ℚ) ≠ 0)]
      norm_num
    rw [abs_of_nonneg (mul_nonneg (le_trans (by positivity) hmq) hu.le)]
    calc (2 : ℚ) ^ 128 ≤ 2 ^ e := h128
      _ = ((2 ^ 23 : ℤ) : ℚ) * 2 ^ (e - 23) := this
      _ ≤ _ := mul_le_mul_of_nonneg_right hmq hu.le
  unfold CFloat.round
  rw [if_neg hx0, hmax, if_pos hbig, if_pos hpos]

theorem CFloat.ofInt_zero : CFloat.ofInt 0 = CFloat.fin 0 := by
  simp [CFloat.ofInt, CFloat.round]

theorem CFloat.ofInt_one : CFloat.ofInt 1 = CFloat.fin 1 := by
  simpa using CFloat.ofInt_exact 1 (by norm_num)

theorem CFloat.ofInt_milli : CFloat.ofInt 1000 = CFloat.fin 1000 := by
  simpa using CFloat.ofInt_exact 1000 (by norm_num)

theorem CFloat.ofInt_micro : CFloat.ofInt 1000000 = CFloat.fin 1000000 := by
  simpa using CFloat.ofInt_exact 1000000 (by norm_num)

/-- The binary32 number nearest to 123.4. -/
theorem round_123_4 : CFloat.round (617 / 5) = CFloat.fin (16174285 / 131072) := by
  have h := CFloat.round_eval (617 / 5) 6 16174285 (by norm_num [abs_of_pos])
    (by norm_num [abs_of_pos]) (by norm_num) (by norm_num [abs_lt]) (by norm_num [abs_of_pos])
  rw [h]
  norm_num

/-- The binary32 number nearest to 1234 / 10^9 (bit pattern `0x35a59feb`). -/
theorem round_1234_nano :
    CFloat.round (1234 / 1000000000) = CFloat.fin (10854379 / 8796093022208) := by
  have h := CFloat.round_eval (1234 / 1000000000) (-20) 10854379 (by norm_num [abs_of_pos])
    (by norm_num [abs_of_pos]) (by norm_num) (by norm_num [abs_lt]) (by norm_num [abs_of_pos])
  rw [h]
  norm_num

theorem round_1234_kilo : CFloat.round (1234 * 1000) = CFloat.fin 1234000 := by
  have h := CFloat.round_exact 1234000 0 (by norm_num) (by norm_num) (by norm_num)
  norm_num at h ⊢
  exact h

/-- The largest finite binary32 number, `FLT_MAX`, times 10^6 overflows. -/
theorem round_flt_max_mega :
    CFloat.round ((2 ^ 128 - 2 ^ 104) * 1000000) = CFloat.pinf :=
  CFloat.round_overflow _ (by norm_num)

/-! ## The parser's functions against the vocabulary of the specification -/

/-- The array `digit_bytes` holds the digit codes of the specification. -/
theorem digit_bytes_eq_spec (buf : Frame) (i : Fin 4) :
    digit_bytes buf i = spec_digit_code buf i := by
  unfold digit_bytes spec_digit_code
  simp only []
  rw [merge_bytes]
  have e1 : (⟨1 + i.val * 2, by unfold DTM0660_PACKET_SIZE; omega⟩ : Fin DTM0660_PACKET_SIZE)
      = ⟨1 + 2 * i.val, by unfold DTM0660_PACKET_SIZE; omega⟩ := Fin.ext (by simp; omega)
  have e2 : (⟨1 + i.val * 2 + 1, by unfold DTM0660_PACKET_SIZE; omega⟩ :
      Fin DTM0660_PACKET_SIZE)
      = ⟨2 + 2 * i.val, by unfold DTM0660_PACKET_SIZE; omega⟩ := Fin.ext (by simp; omega)
  rw [e1, e2]

theorem spec_digit_code_lt (buf : Frame) (i : Fin 4) : spec_digit_code buf i < 256 := by
  rw [← digit_bytes_eq_spec]
  exact Nat.mod_lt _ (by decide)

theorem parse_digit_lookup (b : Fin 256) :
    parse_digit b.val = ((spec_digit_table.lookup b.val).map Int.ofNat).getD (-1) := by
  revert b; decide

theorem parse_digit_of_lookup (buf : Frame) (i : Fin 4) (d : Nat)
    (h : spec_digit_table.lookup (spec_digit_code buf i) = some d) :
    parse_digit (spec_digit_code buf i) = (d : Int) := by
  have := parse_digit_lookup ⟨spec_digit_code buf i, spec_digit_code_lt buf i⟩
  simp only [h] at this
  simpa using this

theorem parse_digit_of_lookup_none (buf : Frame) (i : Fin 4)
    (h : spec_digit_table.lookup (spec_digit_code buf i) = none) :
    parse_digit (spec_digit_code buf i) = -1 := by
  have := parse_digit_lookup ⟨spec_digit_code buf i, spec_digit_code_lt buf i⟩
  simp only [h] at this
  simpa using this

/-- The flags `parse_flags` stores are those of the wire-format table, whatever
the record held before. -/
theorem parse_flags_eq_spec_flags (buf : Frame) (info : dtm0660_info) :
    parse_flags buf info = spec_flags buf := by
  simp only [parse_flags, spec_flags, (testBit_of_mask _).1, (testBit_of_mask _).2.1,
    (testBit_of_mask _).2.2.1, (testBit_of_mask _).2.2.2]

theorem sync_nibbles_valid_iff (buf : Frame) :
    sync_nibbles_valid buf = true ↔ ∀ i, sync_nibble buf i = i.val + 1 := by
  simp [sync_nibbles_valid, sync_nibble, List.all_eq_true, shift_mask_eq_div]

theorem sync_nibble_set (buf : Frame) (i : Fin DTM0660_PACKET_SIZE) (v : Fin 16) :
    sync_nibble (set_sync_nibble buf i v) i = v.val := by
  simp only [sync_nibble, set_sync_nibble, Function.update_same]
  omega

theorem count_five (a b c d e : Bool) :
    (0 + (if a then 1 else 0) + (if b then 1 else 0) + (if c then 1 else 0) +
      (if d then 1 else 0) + (if e then 1 else 0) > 1) ↔
      ¬ [a, b, c, d, e].count true ≤ 1 := by
  revert a b c d e; decide

theorem count_six (a b c d e g : Bool) :
    (0 + (if a then 1 else 0) + (if b then 1 else 0) + (if c then 1 else 0) +
      (if d then 1 else 0) + (if e then 1 else 0) + (if g then 1 else 0) > 1) ↔
      ¬ [a, b, c, d, e, g].count true ≤ 1 := by
  revert a b c d e g; decide

theorem flags_valid_iff (f : dtm0660_info) :
    flags_valid f = true ↔
      [f.is_nano, f.is_micro, f.is_milli, f.is_kilo, f.is_mega].count true ≤ 1 ∧
      [f.is_hz, f.is_ohm, f.is_farad, f.is_ampere, f.is_volt, f.is_percent].count true ≤ 1 ∧
      ¬ (f.is_ac = true ∧ f.is_dc = true) ∧ f.is_rs232 = true := by
  have h5 := count_five f.is_nano f.is_micro f.is_milli f.is_kilo f.is_mega
  have h6 := count_six f.is_hz f.is_ohm f.is_farad f.is_ampere f.is_volt f.is_percent
  unfold flags_valid
  simp only [h5, h6]
  generalize [f.is_nano, f.is_micro, f.is_milli, f.is_kilo, f.is_mega].count true = m
  generalize
    [f.is_hz, f.is_ohm, f.is_farad, f.is_ampere, f.is_volt, f.is_percent].count true = q
  by_cases hm : m ≤ 1 <;> by_cases hq : q ≤ 1 <;> cases f.is_ac <;> cases f.is_dc <;>
    cases f.is_rs232 <;> simp [hm, hq]

theorem packet_valid_iff (buf : Frame) (info : dtm0660_info) :
    sr_dtm0660_packet_valid buf info = true ↔
      (∀ i, sync_nibble buf i = i.val + 1) ∧ flags_valid (spec_flags buf) = true := by
  simp only [sr_dtm0660_packet_valid, parse_flags_eq_spec_flags, Bool.and_eq_true,
    sync_nibbles_valid_iff]

theorem over_range_iff (buf : Frame) :
    (spec_digit_code buf 0 == 0x00 && spec_digit_code buf 1 == 0xeb &&
      spec_digit_code buf 2 == 0x61 && spec_digit_code buf 3 == 0x00) = true ↔
      spec_digit_codes buf = spec_over_range := by
  simp [spec_digit_codes, spec_over_range, and_assoc]

/-- `parse_value` on a frame that carries the over-range sentinel. -/
theorem parse_value_of_over_range (buf : Frame)
    (h : spec_digit_codes buf = spec_over_range) :
    parse_value buf = (SR_OK, CFloat.pinf) := by
  unfold parse_value
  simp only [digit_bytes_eq_spec, (over_range_iff buf).2 h, if_true, CFloat.INFINITY]

/-- `parse_value` on a frame that does not carry the over-range sentinel: the
four results of `parse_digit` are merged, scaled and signed, whatever they
are. -/
theorem parse_value_of_not_over_range (buf : Frame)
    (h : spec_digit_codes buf ≠ spec_over_range) :
    parse_value buf = (SR_OK,
      ((if (buf 3).val.testBit 0 then
          (CFloat.ofInt (((parse_digit (spec_digit_code buf 0) * 10 +
            parse_digit (spec_digit_code buf 1)) * 10 +
            parse_digit (spec_digit_code buf 2)) * 10 +
            parse_digit (spec_digit_code buf 3))).div (CFloat.ofInt 1000)
        else if (buf 5).val.testBit 0 then
          (CFloat.ofInt (((parse_digit (spec_digit_code buf 0) * 10 +
            parse_digit (spec_digit_code buf 1)) * 10 +
            parse_digit (spec_digit_code buf 2)) * 10 +
            parse_digit (spec_digit_code buf 3))).div (CFloat.ofInt 100)
        else if (buf 7).val.testBit 0 then
          (CFloat.ofInt (((parse_digit (spec_digit_code buf 0) * 10 +
            parse_digit (spec_digit_code buf 1)) * 10 +
            parse_digit (spec_digit_code buf 2)) * 10 +
            parse_digit (spec_digit_code buf 3))).div (CFloat.ofInt 10)
        else
          CFloat.ofInt (((parse_digit (spec_digit_code buf 0) * 10 +
            parse_digit (spec_digit_code buf 1)) * 10 +
            parse_digit (spec_digit_code buf 2)) * 10 +
            parse_digit (spec_digit_code buf 3))).mul
        (CFloat.ofInt (if (buf 1).val.testBit 0 then -1 else 1)))) := by
  have hc : (spec_digit_code buf 0 == 0x00 && spec_digit_code buf 1 == 0xeb &&
      spec_digit_code buf 2 == 0x61 && spec_digit_code buf 3 == 0x00) = false := by
    rw [← Bool.not_eq_true, over_range_iff]; exact h
  unfold parse_value
  simp only [digit_bytes_eq_spec, hc, finRange_four, List.foldl, mask_one,
    (testBit_of_mask _).1, zero_mul, zero_add]
  rfl

/-- `parse_value` returns `SR_OK` on every path. -/
theorem parse_value_status (buf : Frame) : (parse_value buf).1 = SR_OK := by
  unfold parse_value
  simp only []
  split <;> rfl

/-- `sr_dtm0660_parse` returns the status of `parse_value`, which is `SR_OK`. -/
theorem sr_dtm0660_parse_status (buf : Frame) (floatval : CFloat)
    (analog : sr_datafeed_analog_old) (info : dtm0660_info) :
    (sr_dtm0660_parse buf floatval analog info).1 = SR_OK := by
  have h := parse_value_status buf
  unfold sr_dtm0660_parse
  rcases hp : parse_value buf with ⟨ret, v⟩
  rw [hp] at h
  simp only at h
  subst h
  rfl

/-! ## The value `parse_value` stores -/

theorem parse_digit_range (c : Nat) : -1 ≤ parse_digit c ∧ parse_digit c ≤ 9 := by
  unfold parse_digit
  split_ifs <;> exact ⟨by decide, by decide⟩

theorem lookup_le_nine (buf : Frame) (i : Fin 4) (d : Nat)
    (h : spec_digit_table.lookup (spec_digit_code buf i) = some d) : d ≤ 9 := by
  have h1 := parse_digit_of_lookup buf i d h
  have h2 := (parse_digit_range (spec_digit_code buf i)).2
  omega

/-- The value `parse_value` stores once the merged integer `n` is known: the
conversion of `n` is exact, a decimal-point bit divides by `k` with one
rounding, and the multiplication by the sign is exact. -/
theorem signed_quotient (n : ℤ) (hn : |n| ≤ 9999) (k s : ℤ)
    (hk : k = 1000 ∨ k = 100 ∨ k = 10) (hs : s = 1 ∨ s = -1) :
    ∃ y : ℚ, |y| ≤ 2 ^ 14 ∧ CFloat.round ((n : ℚ) / k) = CFloat.fin y ∧
      ((CFloat.ofInt n).div (CFloat.ofInt k)).mul (CFloat.ofInt s) = CFloat.fin (s * y) ∧
      (CFloat.ofInt n).mul (CFloat.ofInt s) = CFloat.fin (s * n) := by
  have hnq : |(n : ℚ)| ≤ 9999 := by exact_mod_cast hn
  have en : CFloat.ofInt n = CFloat.fin n := CFloat.ofInt_exact n (by omega)
  have ek : CFloat.ofInt k = CFloat.fin k :=
    CFloat.ofInt_exact k (by rcases hk with h | h | h <;> rw [h] <;> norm_num)
  have es : CFloat.ofInt s = CFloat.fin s :=
    CFloat.ofInt_exact s (by rcases hs with h | h <;> rw [h] <;> norm_num)
  have hk1 : (1 : ℚ) ≤ k := by rcases hk with h | h | h <;> rw [h] <;> norm_num
  have hk0 : (k : ℚ) ≠ 0 := by linarith
  have hq : |(n : ℚ) / k| ≤ 2 ^ 14 := by
    rw [abs_div, abs_of_pos (by linarith : (0 : ℚ) < k)]
    calc |(n : ℚ)| / k ≤ |(n : ℚ)| := div_le_self (abs_nonneg _) hk1
      _ ≤ 2 ^ 14 := hnq.trans (by norm_num)
  obtain ⟨y, hy, hyb⟩ := CFloat.round_bound _ 14 (by norm_num) hq
  have hid := CFloat.round_idem _ y hy
  have hin := CFloat.round_idem (n : ℚ) n (by rw [← en]; rfl)
  refine ⟨y, hyb, hy, ?_, ?_⟩
  · rw [en, ek, es, CFloat.div_fin _ _ hk0, hy, CFloat.mul_fin]
    rcases hs with h | h <;> rw [h]
    · rw [Int.cast_one, mul_one, one_mul]; exact hid.1
    · rw [Int.cast_neg, Int.cast_one, mul_neg_one, neg_one_mul]; exact hid.2
  · rw [en, es, CFloat.mul_fin]
    rcases hs with h | h <;> rw [h]
    · rw [Int.cast_one, mul_one, one_mul]; exact hin.1
    · rw [Int.cast_neg, Int.cast_one, mul_neg_one, neg_one_mul]; exact hin.2


theorem round_div_one (n : ℤ) (hn : |n| ≤ 9999) :
    CFloat.round ((n : ℚ) / 1) = CFloat.fin n := by
  rw [div_one]
  exact CFloat.ofInt_exact n (by omega)

/-- The value `parse_value` stores for the frame `frame_123_4`. -/
theorem parse_value_frame_123_4 :
    parse_value frame_123_4 = (SR_OK, CFloat.fin (16174285 / 131072)) := by
  rw [parse_value_of_not_over_range _ (by decide), if_neg (by decide), if_neg (by decide),
    if_pos (by decide), if_neg (by decide),
    show parse_digit (spec_digit_code frame_123_4 0) = 1 by decide,
    show parse_digit (spec_digit_code frame_123_4 1) = 2 by decide,
    show parse_digit (spec_digit_code frame_123_4 2) = 3 by decide,
    show parse_digit (spec_digit_code frame_123_4 3) = 4 by decide]
  obtain ⟨y, _, hy, hv, _⟩ := signed_quotient 1234 (by norm_num) 10 1 (Or.inr (Or.inr rfl))
    (Or.inl rfl)
  have e : ((1234 : ℤ) : ℚ) / ((10 : ℤ) : ℚ) = 617 / 5 := by norm_num
  rw [e, round_123_4] at hy
  injection hy with hy
  have en : (((1 : ℤ) * 10 + 2) * 10 + 3) * 10 + 4 = 1234 := by norm_num
  rw [en, hv, ← hy]
  norm_num

/-! ## Digit decoding and value assembly -/

/-- Claim C1 fails: the frame `frame_123_4` shows the digits 1, 2, 3, 4 with
only the third decimal-point bit set and the sign clear, and `parse_value`
stores 16174285 / 131072 (bit pattern `0x42f6cccd`, the binary32 number
nearest to 123.4), not 1234 / 10. -/
theorem parse_value_rounded_counterexample :
    spec_digit_codes frame_123_4 ≠ spec_over_range ∧
    spec_digit_codes frame_123_4 = [0x0A, 0xAD, 0x8F, 0x4E] ∧
    (frame_123_4 1).val.testBit 0 = false ∧ (frame_123_4 3).val.testBit 0 = false ∧
    (frame_123_4 5).val.testBit 0 = false ∧ (frame_123_4 7).val.testBit 0 = true ∧
    parse_value frame_123_4 = (SR_OK, CFloat.fin (16174285 / 131072)) ∧
    parse_value frame_123_4 ≠ (SR_OK, CFloat.fin (1 * (1000 * 1 + 100 * 2 + 10 * 3 + 4) / 10)) := by
  refine ⟨by decide, by decide, by decide, by decide, by decide, by decide,
    parse_value_frame_123_4, ?_⟩
  rw [parse_value_frame_123_4]
  intro h
  injection h with _ h
  injection h with h
  norm_num at h

/-- Claim C1 as amended: on a frame that does not carry the over-range pattern
and whose four digit codes decode to the digits `d0 d1 d2 d3` of the table,
`parse_value` returns `SR_OK` and the value `s * y`, where `y` is the quotient
`(1000 d0 + 100 d1 + 10 d2 + d3) / k` rounded to binary32 (nearest, ties to
even), `s = -1` when bit 0 of byte 1 is set and `1` otherwise, and `k` is
chosen by the first set bit among bit 0 of bytes 3, 5, 7 (1000, 100, 10), `1`
when none is set. -/
theorem parse_value_digits (buf : Frame) (d0 d1 d2 d3 : Nat)
    (hol : spec_digit_codes buf ≠ spec_over_range)
    (h0 : spec_digit_table.lookup (spec_digit_code buf 0) = some d0)
    (h1 : spec_digit_table.lookup (spec_digit_code buf 1) = some d1)
    (h2 : spec_digit_table.lookup (spec_digit_code buf 2) = some d2)
    (h3 : spec_digit_table.lookup (spec_digit_code buf 3) = some d3) :
    ∃ y : ℚ,
      CFloat.round ((1000 * d0 + 100 * d1 + 10 * d2 + d3) /
        (if (buf 3).val.testBit 0 then 1000
         else if (buf 5).val.testBit 0 then 100
         else if (buf 7).val.testBit 0 then 10
         else 1)) = CFloat.fin y ∧
      parse_value buf =
        (SR_OK, CFloat.fin ((if (buf 1).val.testBit 0 then -1 else 1) * y)) := by
  have b0 := lookup_le_nine buf 0 d0 h0
  have b1 := lookup_le_nine buf 1 d1 h1
  have b2 := lookup_le_nine buf 2 d2 h2
  have b3 := lookup_le_nine buf 3 d3 h3
  rw [parse_value_of_not_over_range buf hol, parse_digit_of_lookup buf 0 d0 h0,
    parse_digit_of_lookup buf 1 d1 h1, parse_digit_of_lookup buf 2 d2 h2,
    parse_digit_of_lookup buf 3 d3 h3]
  obtain ⟨n, hn⟩ : ∃ n : ℤ, (((d0 : ℤ) * 10 + d1) * 10 + d2) * 10 + d3 = n := ⟨_, rfl⟩
  have hnb : |n| ≤ 9999 := by rw [← hn, abs_le]; constructor <;> omega
  have hnq : (1000 * d0 + 100 * d1 + 10 * d2 + d3 : ℚ) = (n : ℚ) := by
    rw [← hn]; push_cast; ring
  rw [hn, hnq]
  obtain ⟨s, hs, hsq, hsz⟩ : ∃ s : ℤ, (s = 1 ∨ s = -1) ∧
      (if (buf 1).val.testBit 0 = true then (-1 : ℚ) else 1) = (s : ℚ) ∧
      (if (buf 1).val.testBit 0 = true then (-1 : ℤ) else 1) = s := by
    by_cases hb : (buf 1).val.testBit 0 = true
    · exact ⟨-1, Or.inr rfl, by rw [if_pos hb]; norm_num, by rw [if_pos hb]⟩
    · exact ⟨1, Or.inl rfl, by rw [if_neg hb]; norm_num, by rw [if_neg hb]⟩
  rw [hsq, hsz]
  by_cases c3 : (buf 3).val.testBit 0 = true
  · obtain ⟨y, _, hy, hv, _⟩ := signed_quotient n hnb 1000 s (Or.inl rfl) hs
    rw [if_pos c3, if_pos c3]
    exact ⟨y, by simpa using hy, by rw [hv]⟩
  by_cases c5 : (buf 5).val.testBit 0 = true
  · obtain ⟨y, _, hy, hv, _⟩ := signed_quotient n hnb 100 s (Or.inr (Or.inl rfl)) hs
    rw [if_neg c3, if_neg c3, if_pos c5, if_pos c5]
    exact ⟨y, by simpa using hy, by rw [hv]⟩
  by_cases c7 : (buf 7).val.testBit 0 = true
  · obtain ⟨y, _, hy, hv, _⟩ := signed_quotient n hnb 10 s (Or.inr (Or.inr rfl)) hs
    rw [if_neg c3, if_neg c3, if_neg c5, if_neg c5, if_pos c7, if_pos c7]
    exact ⟨y, by simpa using hy, by rw [hv]⟩
  · obtain ⟨_, _, _, _, hv⟩ := signed_quotient n hnb 10 s (Or.inr (Or.inr rfl)) hs
    rw [if_neg c3, if_neg c3, if_neg c5, if_neg c5, if_neg c7, if_neg c7]
    exact ⟨n, round_div_one n hnb, by rw [hv]⟩

/-- Witness of the amended C1: the digits 1, 2, 3, 4 with the third
decimal-point bit set and the sign clear give 16174285 / 131072, the binary32
number nearest to 123.4; the digits 0, 0, 0, 1 with the sign set and no
decimal-point bit give -1. -/
theorem parse_value_digits_witness :
    parse_value frame_123_4 = (SR_OK, CFloat.fin (16174285 / 131072)) ∧
    parse_value frame_neg_1 = (SR_OK, CFloat.fin (-1)) := by
  obtain ⟨y, hy, h⟩ := parse_value_digits frame_123_4 1 2 3 4 (by decide) (by decide)
    (by decide) (by decide) (by decide)
  obtain ⟨z, hz, h'⟩ := parse_value_digits frame_neg_1 0 0 0 1 (by decide) (by decide)
    (by decide) (by decide) (by decide)
  rw [if_neg (by decide), if_neg (by decide), if_pos (by decide)] at hy
  rw [if_neg (by decide)] at h
  rw [if_neg (by decide), if_neg (by decide), if_neg (by decide)] at hz
  rw [if_pos (by decide)] at h'
  have e : (1000 * ((1 : ℕ) : ℚ) + 100 * ((2 : ℕ) : ℚ) + 10 * ((3 : ℕ) : ℚ) + ((4 : ℕ) : ℚ)) / 10
      = 617 / 5 := by norm_num
  have e' : (1000 * ((0 : ℕ) : ℚ) + 100 * ((0 : ℕ) : ℚ) + 10 * ((0 : ℕ) : ℚ) + ((1 : ℕ) : ℚ)) / 1
      = ((1 : ℤ) : ℚ) / 1 := by norm_num
  rw [e, round_123_4] at hy
  rw [e', round_div_one 1 (by norm_num)] at hz
  injection hy with hy
  injection hz with hz
  rw [h, h', ← hy, ← hz]
  norm_num

/-- Claim C2: `parse_digit` maps the ten segment patterns to their digits
(`0xEB` to 0, `0x0A` to 1, `0xAD` to 2, `0x8F` to 3, `0x4E` to 4, `0xC7` to 5,
`0xE7` to 6, `0x8A` to 7, `0xEF` to 8, `0xCF` to 9), agrees with the table of
the specification on every byte, and returns `-1` exactly on the other bytes,
of which there are 246. -/
theorem parse_digit_table :
    parse_digit 0xEB = 0 ∧ parse_digit 0x0A = 1 ∧ parse_digit 0xAD = 2 ∧
    parse_digit 0x8F = 3 ∧ parse_digit 0x4E = 4 ∧ parse_digit 0xC7 = 5 ∧
    parse_digit 0xE7 = 6 ∧ parse_digit 0x8A = 7 ∧ parse_digit 0xEF = 8 ∧
    parse_digit 0xCF = 9 ∧
    (∀ b : Fin 256, parse_digit b.val =
      ((spec_digit_table.lookup b.val).map Int.ofNat).getD (-1)) ∧
    (∀ b : Fin 256, parse_digit b.val = -1 ↔
      b.val ∉ [0xEB, 0x0A, 0xAD, 0x8F, 0x4E, 0xC7, 0xE7, 0x8A, 0xEF, 0xCF]) ∧
    ((List.finRange 256).filter (fun b => parse_digit b.val = -1)).length = 246 := by
  refine ⟨by decide, by decide, by decide, by decide, by decide, by decide, by decide,
    by decide, by decide, by decide, by decide, by decide, by decide⟩

/-- Claim C3, at the failing input: the frame `frame_blank_digit` does not carry
the over-range pattern and its first digit code `0x00` is no valid digit code,
yet `parse_value` and `sr_dtm0660_parse` return `SR_OK` and the value `-766`
(the `-1` of `parse_digit` merged as a digit with 2, 3, 4). -/
theorem parse_value_blank_digit :
    spec_digit_codes frame_blank_digit ≠ spec_over_range ∧
    spec_digit_table.lookup (spec_digit_code frame_blank_digit 0) = none ∧
    parse_digit (spec_digit_code frame_blank_digit 0) = -1 ∧
    parse_value frame_blank_digit = (SR_OK, CFloat.fin (-766)) ∧
    (sr_dtm0660_parse frame_blank_digit (CFloat.fin 0) analog_clear info_clear).1 = SR_OK := by
  refine ⟨by decide, by decide, by decide, ?_, by decide⟩
  rw [parse_value_of_not_over_range _ (by decide), if_neg (by decide), if_neg (by decide),
    if_neg (by decide), if_neg (by decide),
    show parse_digit (spec_digit_code frame_blank_digit 0) = -1 by decide,
    show parse_digit (spec_digit_code frame_blank_digit 1) = 2 by decide,
    show parse_digit (spec_digit_code frame_blank_digit 2) = 3 by decide,
    show parse_digit (spec_digit_code frame_blank_digit 3) = 4 by decide]
  obtain ⟨_, _, _, _, hv⟩ := signed_quotient (-766) (by norm_num) 10 1 (Or.inr (Or.inr rfl))
    (Or.inl rfl)
  have en : (((-1 : ℤ) * 10 + 2) * 10 + 3) * 10 + 4 = -766 := by norm_num
  rw [en, hv]
  norm_num

/-- Claim C9: on a frame whose digit codes are the over-range pattern and whose
sign bit is clear, `parse_value` returns `SR_OK` and positive infinity, whatever
the decimal-point bits are; no failure is reported although `0x00` and `0x61`
are not digit codes. -/
theorem parse_value_over_range (buf : Frame)
    (hol : spec_digit_codes buf = spec_over_range)
    (_hsign : (buf 1).val.testBit 0 = false) :
    parse_value buf = (SR_OK, CFloat.pinf) ∧
    parse_digit 0x00 = -1 ∧ parse_digit 0x61 = -1 :=
  ⟨parse_value_of_over_range buf hol, by decide, by decide⟩

/-- Witness of C9: the frame `frame_over_range`. -/
theorem parse_value_over_range_witness :
    parse_value frame_over_range = (SR_OK, CFloat.pinf) :=
  (parse_value_over_range frame_over_range (by decide) (by decide)).1

/-- Claim C10 fails: the frame `frame_over_range_neg` carries the over-range
pattern with the sign bit set and `parse_value` does not return negative
infinity. -/
theorem parse_value_over_range_neg_counterexample :
    spec_digit_codes frame_over_range_neg = spec_over_range ∧
    (frame_over_range_neg 1).val.testBit 0 = true ∧
    parse_value frame_over_range_neg ≠ (SR_OK, CFloat.ninf) := by
  refine ⟨by decide, by decide, by decide⟩

/-- Claim C10 as amended: on a frame whose digit codes are the over-range
pattern and whose sign bit is set, `parse_value` returns `SR_OK` and positive
infinity: the over-range branch does not apply the sign. -/
theorem parse_value_over_range_signed (buf : Frame)
    (hol : spec_digit_codes buf = spec_over_range)
    (_hsign : (buf 1).val.testBit 0 = true) :
    parse_value buf = (SR_OK, CFloat.pinf) :=
  parse_value_of_over_range buf hol

/-- Witness of the amended C10: the frame `frame_over_range_neg`. -/
theorem parse_value_over_range_signed_witness :
    parse_value frame_over_range_neg = (SR_OK, CFloat.pinf) :=
  parse_value_over_range_signed frame_over_range_neg (by decide) (by decide)

/-! ## Frame validity -/

/-- Claim C7: `sync_nibbles_valid` returns true exactly when the high nibble of
byte `i` is `i + 1` for every `i` in `0..14`; two frames with the same high
nibbles get the same answer, whatever their low nibbles are. -/
theorem sync_nibbles_valid_spec (buf : Frame) :
    (sync_nibbles_valid buf = true ↔
      ∀ i : Fin DTM0660_PACKET_SIZE, (buf i).val / 16 = i.val + 1) ∧
    (∀ buf' : Frame, (∀ i, (buf' i).val / 16 = (buf i).val / 16) →
      sync_nibbles_valid buf' = sync_nibbles_valid buf) := by
  refine ⟨sync_nibbles_valid_iff buf, fun buf' h => ?_⟩
  rw [Bool.eq_iff_iff, sync_nibbles_valid_iff, sync_nibbles_valid_iff]
  simp only [sync_nibble, h]

/-- Witness of C7: `frame_over_range` has the high nibbles of `frame_123_4` and
other low nibbles; both pass. -/
theorem sync_nibbles_valid_spec_witness :
    sync_nibbles_valid frame_over_range = sync_nibbles_valid frame_123_4 ∧
    sync_nibbles_valid frame_123_4 = true :=
  ⟨(sync_nibbles_valid_spec frame_123_4).2 frame_over_range (by decide),
   (sync_nibbles_valid_spec frame_123_4).1.2 (by decide)⟩

/-- Claim C8: replacing the high nibble of one byte `i` by a value `v` other
than `i + 1` gives a frame that `sync_nibbles_valid` and
`sr_dtm0660_packet_valid` reject, whatever the low nibbles are.  (This holds
for every frame, so in particular for those whose sync nibbles were all
correct.) -/
theorem altered_sync_nibble_rejected (buf : Frame) (info : dtm0660_info)
    (i : Fin DTM0660_PACKET_SIZE) (v : Fin 16) (hv : v.val ≠ i.val + 1) :
    sync_nibbles_valid (set_sync_nibble buf i v) = false ∧
    sr_dtm0660_packet_valid (set_sync_nibble buf i v) info = false := by
  have h : sync_nibbles_valid (set_sync_nibble buf i v) = false := by
    rw [← Bool.not_eq_true, sync_nibbles_valid_iff]
    intro hall
    exact hv ((sync_nibble_set buf i v).symm.trans (hall i))
  exact ⟨h, by simp [sr_dtm0660_packet_valid, h]⟩

/-- Witness of C8: the accepted frame `frame_123_4` with the high nibble of
byte 3 set to 0. -/
theorem altered_sync_nibble_rejected_witness :
    sr_dtm0660_packet_valid frame_123_4 info_clear = true ∧
    sync_nibbles_valid (set_sync_nibble frame_123_4 3 0) = false ∧
    sr_dtm0660_packet_valid (set_sync_nibble frame_123_4 3 0) info_clear = false :=
  ⟨by decide, altered_sync_nibble_rejected frame_123_4 info_clear 3 0 (by decide)⟩

/-- Claim C5: `sr_dtm0660_packet_valid` returns true exactly when the high
nibble of byte `i` is `i + 1` for every `i`, at most one of the flags nano,
micro, milli, kilo, mega is set, at most one of the flags hertz, ohm, farad,
ampere, volt, percent is set, AC and DC are not both set, and the RS232 marker
(byte 0 bit 3) is set. -/
theorem sr_dtm0660_packet_valid_spec (buf : Frame) (info : dtm0660_info) :
    sr_dtm0660_packet_valid buf info = true ↔
      (∀ i : Fin DTM0660_PACKET_SIZE, (buf i).val / 16 = i.val + 1) ∧
      [(spec_flags buf).is_nano, (spec_flags buf).is_micro, (spec_flags buf).is_milli,
        (spec_flags buf).is_kilo, (spec_flags buf).is_mega].count true ≤ 1 ∧
      [(spec_flags buf).is_hz, (spec_flags buf).is_ohm, (spec_flags buf).is_farad,
        (spec_flags buf).is_ampere, (spec_flags buf).is_volt,
        (spec_flags buf).is_percent].count true ≤ 1 ∧
      ¬ ((spec_flags buf).is_ac = true ∧ (spec_flags buf).is_dc = true) ∧
      (buf 0).val.testBit 3 = true := by
  rw [packet_valid_iff, flags_valid_iff]
  rfl

/-- Witness of C5: the frame `frame_123_4` meets the five conditions and is
accepted. -/
theorem sr_dtm0660_packet_valid_spec_witness :
    sr_dtm0660_packet_valid frame_123_4 info_clear = true :=
  (sr_dtm0660_packet_valid_spec frame_123_4 info_clear).2 (by decide)

/-- Claim C4 fails: the frame `frame_ac_dc` has the AC and the DC bit set and
does not pass the validity check, yet `sr_dtm0660_parse` returns `SR_OK`. -/
theorem sr_dtm0660_parse_ungated_counterexample :
    (frame_ac_dc 0).val.testBit 0 = true ∧ (frame_ac_dc 0).val.testBit 1 = true ∧
    sr_dtm0660_packet_valid frame_ac_dc info_clear = false ∧
    (sr_dtm0660_parse frame_ac_dc (CFloat.fin 0) analog_clear info_clear).1 = SR_OK := by
  refine ⟨by decide, by decide, by decide, by decide⟩

/-- Claim C4 as amended: the validity check is `sr_dtm0660_packet_valid`: it
accepts a frame only if the high nibble of every byte `i` is `i + 1`, at most
one multiplier flag and at most one of the flags hertz, ohm, farad, ampere,
volt, percent is set, AC and DC are not both set and the RS232 marker is set;
it rejects every frame with both the AC and the DC bit of byte 0 set.
`sr_dtm0660_parse` performs no validity check: it returns `SR_OK` on every
frame, accepted or not. -/
theorem sr_dtm0660_packet_valid_gate (buf : Frame) (floatval : CFloat)
    (analog : sr_datafeed_analog_old) (info : dtm0660_info) :
    (sr_dtm0660_packet_valid buf info = true →
      (∀ i : Fin DTM0660_PACKET_SIZE, (buf i).val / 16 = i.val + 1) ∧
      [(spec_flags buf).is_nano, (spec_flags buf).is_micro, (spec_flags buf).is_milli,
        (spec_flags buf).is_kilo, (spec_flags buf).is_mega].count true ≤ 1 ∧
      [(spec_flags buf).is_hz, (spec_flags buf).is_ohm, (spec_flags buf).is_farad,
        (spec_flags buf).is_ampere, (spec_flags buf).is_volt,
        (spec_flags buf).is_percent].count true ≤ 1 ∧
      ¬ ((buf 0).val.testBit 0 = true ∧ (buf 0).val.testBit 1 = true) ∧
      (buf 0).val.testBit 3 = true) ∧
    ((buf 0).val.testBit 0 = true → (buf 0).val.testBit 1 = true →
      sr_dtm0660_packet_valid buf info = false) ∧
    (sr_dtm0660_parse buf floatval analog info).1 = SR_OK := by
  refine ⟨fun h => ?_, fun hac hdc => ?_, sr_dtm0660_parse_status buf floatval analog info⟩
  · have h1 := (packet_valid_iff buf info).1 h
    exact ⟨h1.1, (flags_valid_iff _).1 h1.2⟩
  · rw [← Bool.not_eq_true, packet_valid_iff, flags_valid_iff]
    exact fun h => h.2.2.2.1 ⟨hac, hdc⟩

/-- Witness of the amended C4: the accepted frame `frame_123_4` has the RS232
marker set; `frame_ac_dc` is rejected by `sr_dtm0660_packet_valid` and decoded
with `SR_OK` by `sr_dtm0660_parse`. -/
theorem sr_dtm0660_packet_valid_gate_witness :
    (frame_123_4 0).val.testBit 3 = true ∧
    sr_dtm0660_packet_valid frame_ac_dc info_clear = false ∧
    (sr_dtm0660_parse frame_ac_dc (CFloat.fin 0) analog_clear info_clear).1 = SR_OK :=
  ⟨((sr_dtm0660_packet_valid_gate frame_123_4 (CFloat.fin 0) analog_clear info_clear).1
      (by decide)).2.2.2.2,
   (sr_dtm0660_packet_valid_gate frame_ac_dc (CFloat.fin 0) analog_clear info_clear).2.1
      (by decide) (by decide),
   (sr_dtm0660_packet_valid_gate frame_ac_dc (CFloat.fin 0) analog_clear info_clear).2.2⟩

/-- Claim C6 fails: `frame_volt_diode` (volt and diode) and `frame_degc_degf`
(celsius and fahrenheit) each have two of the ten measured-quantity flags set
and are accepted by `sr_dtm0660_packet_valid`. -/
theorem two_quantity_flags_accepted_counterexample :
    (spec_quantity_flags frame_volt_diode).count true = 2 ∧
    sr_dtm0660_packet_valid frame_volt_diode info_clear = true ∧
    (spec_quantity_flags frame_degc_degf).count true = 2 ∧
    sr_dtm0660_packet_valid frame_degc_degf info_clear = true := by
  refine ⟨by decide, by decide, by decide, by decide⟩

/-- Claim C6 as amended: every frame accepted by `sr_dtm0660_packet_valid` has
at most one of the six flags hertz, ohm, farad, ampere, volt, percent set;
diode, beep/continuity, celsius and fahrenheit are not counted. -/
theorem accepted_frame_counted_quantity (buf : Frame) (info : dtm0660_info)
    (h : sr_dtm0660_packet_valid buf info = true) :
    [(spec_flags buf).is_hz, (spec_flags buf).is_ohm, (spec_flags buf).is_farad,
      (spec_flags buf).is_ampere, (spec_flags buf).is_volt,
      (spec_flags buf).is_percent].count true ≤ 1 :=
  ((flags_valid_iff _).1 ((packet_valid_iff buf info).1 h).2).2.1

/-- Witness of the amended C6: the accepted frame `frame_volt_diode`. -/
theorem accepted_frame_counted_quantity_witness :
    [(spec_flags frame_volt_diode).is_hz, (spec_flags frame_volt_diode).is_ohm,
      (spec_flags frame_volt_diode).is_farad, (spec_flags frame_volt_diode).is_ampere,
      (spec_flags frame_volt_diode).is_volt,
      (spec_flags frame_volt_diode).is_percent].count true ≤ 1 :=
  accepted_frame_counted_quantity frame_volt_diode info_clear (by decide)

/-! ## The three outputs of `handle_flags` -/

theorem ite_mk_mq (c : Bool) (a : sr_datafeed_analog_old) (m : sr_mq) (u : sr_unit)
    (s : Finset sr_mqflag) :
    (if c = true then (⟨m, u, s⟩ : sr_datafeed_analog_old) else a).mq =
      if c = true then m else a.mq := by
  cases c <;> rfl

theorem ite_mk_unit (c : Bool) (a : sr_datafeed_analog_old) (m : sr_mq) (u : sr_unit)
    (s : Finset sr_mqflag) :
    (if c = true then (⟨m, u, s⟩ : sr_datafeed_analog_old) else a).unit =
      if c = true then u else a.unit := by
  cases c <;> rfl

theorem ite_mk_mqflags (c : Bool) (a : sr_datafeed_analog_old) (m : sr_mq) (u : sr_unit)
    (s : Finset sr_mqflag) :
    (if c = true then (⟨m, u, s⟩ : sr_datafeed_analog_old) else a).mqflags =
      if c = true then s else a.mqflags := by
  cases c <;> rfl

theorem ite_insert (c : Bool) (x : sr_mqflag) (s : Finset sr_mqflag) :
    (if c = true then insert x s else s) = s ∪ (if c = true then {x} else ∅) := by
  cases c <;> simp [Finset.insert_eq, Finset.union_comm]

/-- Quantity left by `handle_flags`: the checks run in the order volt, ampere,
ohm, hertz, farad, beep, diode, percent, celsius, fahrenheit and each set flag
overwrites the quantity, so the last set flag decides. -/
theorem handle_flags_mq (a : sr_datafeed_analog_old) (v : CFloat) (f : dtm0660_info) :
    (handle_flags a v f).1.mq =
      if f.is_degf then SR_MQ_TEMPERATURE
      else if f.is_degc then SR_MQ_TEMPERATURE
      else if f.is_percent then SR_MQ_DUTY_CYCLE
      else if f.is_diode then SR_MQ_VOLTAGE
      else if f.is_beep then SR_MQ_CONTINUITY
      else if f.is_farad then SR_MQ_CAPACITANCE
      else if f.is_hz then SR_MQ_FREQUENCY
      else if f.is_ohm then SR_MQ_RESISTANCE
      else if f.is_ampere then SR_MQ_CURRENT
      else if f.is_volt then SR_MQ_VOLTAGE
      else a.mq := by
  simp only [handle_flags, ite_mk_mq, ite_self]

theorem handle_flags_unit (a : sr_datafeed_analog_old) (v : CFloat) (f : dtm0660_info) :
    (handle_flags a v f).1.unit =
      if f.is_degf then SR_UNIT_FAHRENHEIT
      else if f.is_degc then SR_UNIT_CELSIUS
      else if f.is_percent then SR_UNIT_PERCENTAGE
      else if f.is_diode then SR_UNIT_VOLT
      else if f.is_beep then SR_UNIT_BOOLEAN
      else if f.is_farad then SR_UNIT_FARAD
      else if f.is_hz then SR_UNIT_HERTZ
      else if f.is_ohm then SR_UNIT_OHM
      else if f.is_ampere then SR_UNIT_AMPERE
      else if f.is_volt then SR_UNIT_VOLT
      else a.unit := by
  simp only [handle_flags, ite_mk_unit, ite_self]

theorem handle_flags_mqflags (a : sr_datafeed_analog_old) (v : CFloat) (f : dtm0660_info) :
    (handle_flags a v f).1.mqflags =
      a.mqflags ∪ (if f.is_ac then {SR_MQFLAG_AC} else ∅) ∪
        (if f.is_dc then {SR_MQFLAG_DC} else ∅) ∪
        (if f.is_auto then {SR_MQFLAG_AUTORANGE} else ∅) ∪
        (if f.is_diode then {SR_MQFLAG_DIODE} else ∅) ∪
        (if f.is_hold then {SR_MQFLAG_HOLD} else ∅) ∪
        (if f.is_rel then {SR_MQFLAG_RELATIVE} else ∅) ∪
        (if f.is_min then {SR_MQFLAG_MIN} else ∅) ∪
        (if f.is_max then {SR_MQFLAG_MAX} else ∅) := by
  simp only [handle_flags, ite_mk_mqflags, ite_self, ite_insert]

theorem handle_flags_value (a : sr_datafeed_analog_old) (v : CFloat) (f : dtm0660_info) :
    (handle_flags a v f).2 =
      let v1 := if f.is_nano then v.div (CFloat.ofInt 1000000000) else v
      let v2 := if f.is_micro then v1.div (CFloat.ofInt 1000000) else v1
      let v3 := if f.is_milli then v2.div (CFloat.ofInt 1000) else v2
      let v4 := if f.is_kilo then v3.mul (CFloat.ofInt 1000) else v3
      let v5 := if f.is_mega then v4.mul (CFloat.ofInt 1000000) else v4
      if f.is_beep then (if v5.eq CFloat.INFINITY then CFloat.ofInt 0 else CFloat.ofInt 1)
      else v5 := rfl


/-- The last set flag of the fixed order, as `handle_flags` computes it. -/
theorem last_quantity_eq (a : sr_datafeed_analog_old) (v : CFloat) (f : dtm0660_info) :
    (((spec_quantity_order f).filter (fun p => p.1)).getLast?).map Prod.snd =
      if f.is_volt || f.is_ampere || f.is_ohm || f.is_hz || f.is_farad || f.is_beep ||
          f.is_diode || f.is_percent || f.is_degc || f.is_degf then
        some ((handle_flags a v f).1.mq, (handle_flags a v f).1.unit)
      else none := by
  rw [handle_flags_mq, handle_flags_unit, List.filter_getLast?]
  simp only [spec_quantity_order, List.reverse_cons, List.reverse_nil, List.nil_append,
    List.cons_append, List.find?_cons]
  cases f.is_degf <;> cases f.is_degc <;> cases f.is_percent <;> cases f.is_diode <;>
    cases f.is_beep <;> cases f.is_farad <;> cases f.is_hz <;> cases f.is_ohm <;>
    cases f.is_ampere <;> cases f.is_volt <;> rfl

theorem analog_ext (x y : sr_datafeed_analog_old) (h1 : x.mq = y.mq) (h2 : x.unit = y.unit)
    (h3 : x.mqflags = y.mqflags) : x = y := by
  cases x; cases y; simp_all

/-- `sr_dtm0660_parse` in one equation: the status is `SR_OK`, the flag record
is the one of the wire table, value and output record come from `handle_flags`
applied to the value of `parse_value`. -/
theorem sr_dtm0660_parse_eq (buf : Frame) (floatval : CFloat)
    (analog : sr_datafeed_analog_old) (info : dtm0660_info) :
    sr_dtm0660_parse buf floatval analog info =
      (SR_OK, (handle_flags analog (parse_value buf).2 (spec_flags buf)).2,
        (handle_flags analog (parse_value buf).2 (spec_flags buf)).1, spec_flags buf) := by
  have h := parse_value_status buf
  unfold sr_dtm0660_parse
  rcases hp : parse_value buf with ⟨ret, v⟩
  rw [hp] at h
  simp only at h
  subst h
  simp only [parse_flags_eq_spec_flags]
  rfl

theorem mem_ite_singleton (c : Bool) (x y : sr_mqflag) :
    x ∈ (if c = true then ({y} : Finset sr_mqflag) else ∅) ↔ x = y ∧ c = true := by
  cases c <;> simp

/-- Membership in the modifier set left by `handle_flags`. -/
theorem mem_handle_flags_mqflags (a : sr_datafeed_analog_old) (v : CFloat)
    (f : dtm0660_info) (x : sr_mqflag) :
    x ∈ (handle_flags a v f).1.mqflags ↔
      x ∈ a.mqflags ∨ (x = SR_MQFLAG_AC ∧ f.is_ac = true) ∨
      (x = SR_MQFLAG_DC ∧ f.is_dc = true) ∨
      (x = SR_MQFLAG_AUTORANGE ∧ f.is_auto = true) ∨
      (x = SR_MQFLAG_DIODE ∧ f.is_diode = true) ∨
      (x = SR_MQFLAG_HOLD ∧ f.is_hold = true) ∨
      (x = SR_MQFLAG_RELATIVE ∧ f.is_rel = true) ∨
      (x = SR_MQFLAG_MIN ∧ f.is_min = true) ∨
      (x = SR_MQFLAG_MAX ∧ f.is_max = true) := by
  rw [handle_flags_mqflags]
  simp only [Finset.mem_union, mem_ite_singleton, or_assoc]

theorem handle_flags_mq_idem (a : sr_datafeed_analog_old) (v : CFloat) (f : dtm0660_info) :
    (handle_flags (handle_flags a v f).1 v f).1.mq = (handle_flags a v f).1.mq := by
  have h := handle_flags_mq a v f
  rw [handle_flags_mq (handle_flags a v f).1 v f]
  generalize (handle_flags a v f).1.mq = y at h ⊢
  revert h
  cases f.is_degf <;> try exact fun h => h.symm
  cases f.is_degc <;> try exact fun h => h.symm
  cases f.is_percent <;> try exact fun h => h.symm
  cases f.is_diode <;> try exact fun h => h.symm
  cases f.is_beep <;> try exact fun h => h.symm
  cases f.is_farad <;> try exact fun h => h.symm
  cases f.is_hz <;> try exact fun h => h.symm
  cases f.is_ohm <;> try exact fun h => h.symm
  cases f.is_ampere <;> try exact fun h => h.symm
  cases f.is_volt
  · exact fun _ => rfl
  · exact fun h => h.symm

theorem handle_flags_unit_idem (a : sr_datafeed_analog_old) (v : CFloat) (f : dtm0660_info) :
    (handle_flags (handle_flags a v f).1 v f).1.unit = (handle_flags a v f).1.unit := by
  have h := handle_flags_unit a v f
  rw [handle_flags_unit (handle_flags a v f).1 v f]
  generalize (handle_flags a v f).1.unit = y at h ⊢
  revert h
  cases f.is_degf <;> try exact fun h => h.symm
  cases f.is_degc <;> try exact fun h => h.symm
  cases f.is_percent <;> try exact fun h => h.symm
  cases f.is_diode <;> try exact fun h => h.symm
  cases f.is_beep <;> try exact fun h => h.symm
  cases f.is_farad <;> try exact fun h => h.symm
  cases f.is_hz <;> try exact fun h => h.symm
  cases f.is_ohm <;> try exact fun h => h.symm
  cases f.is_ampere <;> try exact fun h => h.symm
  cases f.is_volt
  · exact fun _ => rfl
  · exact fun h => h.symm

/-- Running `handle_flags` on its own output record changes nothing. -/
theorem handle_flags_idem (a : sr_datafeed_analog_old) (v : CFloat) (f : dtm0660_info) :
    handle_flags (handle_flags a v f).1 v f = handle_flags a v f := by
  have hflags : (handle_flags (handle_flags a v f).1 v f).1.mqflags =
      (handle_flags a v f).1.mqflags := by
    apply Finset.ext
    intro x
    rw [mem_handle_flags_mqflags (handle_flags a v f).1 v f x,
      mem_handle_flags_mqflags a v f x, or_assoc, or_self]
  have hvalue : (handle_flags (handle_flags a v f).1 v f).2 = (handle_flags a v f).2 :=
    (handle_flags_value (handle_flags a v f).1 v f).trans (handle_flags_value a v f).symm
  exact Prod.ext (analog_ext _ _ (handle_flags_mq_idem a v f) (handle_flags_unit_idem a v f)
    hflags) hvalue

/-- A finite value within `2 ^ k` stays finite and within `2 ^ k` through an
optional division by a constant of at least 1. -/
theorem cond_div_bounded (b : Bool) (q c : ℚ) (n : ℤ) (k : ℕ) (hk : k ≤ 127)
    (hq : |q| ≤ 2 ^ k) (hn : CFloat.ofInt n = CFloat.fin c) (hc : 1 ≤ c) :
    ∃ q' : ℚ, (if b = true then (CFloat.fin q).div (CFloat.ofInt n) else CFloat.fin q) =
      CFloat.fin q' ∧ |q'| ≤ 2 ^ k := by
  cases b
  · exact ⟨q, rfl, hq⟩
  · rw [if_pos rfl, hn, CFloat.div_fin _ _ (by linarith)]
    refine CFloat.round_bound _ k hk ?_
    rw [abs_div, abs_of_pos (by linarith : (0 : ℚ) < c)]
    exact (div_le_self (abs_nonneg _) hc).trans hq

/-- A finite value within `2 ^ k` stays finite, within `2 ^ (k + j)`, through
an optional multiplication by a constant between 1 and `2 ^ j`. -/
theorem cond_mul_bounded (b : Bool) (q c : ℚ) (n : ℤ) (k j : ℕ) (hk : k + j ≤ 127)
    (hq : |q| ≤ 2 ^ k) (hn : CFloat.ofInt n = CFloat.fin c) (hc1 : 1 ≤ c) (hc : c ≤ 2 ^ j) :
    ∃ q' : ℚ, (if b = true then (CFloat.fin q).mul (CFloat.ofInt n) else CFloat.fin q) =
      CFloat.fin q' ∧ |q'| ≤ 2 ^ (k + j) := by
  have hmono : (2 : ℚ) ^ k ≤ 2 ^ (k + j) := pow_le_pow_right₀ (by norm_num) (by omega)
  cases b
  · exact ⟨q, rfl, hq.trans hmono⟩
  · rw [if_pos rfl, hn, CFloat.mul_fin]
    refine CFloat.round_bound _ (k + j) hk ?_
    rw [abs_mul, abs_of_pos (by linarith : (0 : ℚ) < c), pow_add]
    exact mul_le_mul hq hc (by linarith) (by positivity)

/-- Positive infinity stays positive infinity through every scaling. -/
theorem cond_scale_pinf (b : Bool) :
    (if b = true then CFloat.pinf.div (CFloat.ofInt 1000000000) else CFloat.pinf) =
      CFloat.pinf ∧
    (if b = true then CFloat.pinf.div (CFloat.ofInt 1000000) else CFloat.pinf) = CFloat.pinf ∧
    (if b = true then CFloat.pinf.div (CFloat.ofInt 1000) else CFloat.pinf) = CFloat.pinf ∧
    (if b = true then CFloat.pinf.mul (CFloat.ofInt 1000) else CFloat.pinf) = CFloat.pinf ∧
    (if b = true then CFloat.pinf.mul (CFloat.ofInt 1000000) else CFloat.pinf) = CFloat.pinf := by
  rw [CFloat.ofInt_nano, CFloat.ofInt_micro, CFloat.ofInt_milli]
  cases b <;> norm_num [CFloat.div, CFloat.mul]

/-- With the beep flag set, an infinite value stays infinite through every
scaling and is collapsed to 0. -/
theorem handle_flags_beep_pinf (a : sr_datafeed_analog_old) (f : dtm0660_info)
    (hb : f.is_beep = true) : (handle_flags a CFloat.pinf f).2 = CFloat.fin 0 := by
  rw [handle_flags_value, hb]
  simp only [(cond_scale_pinf _).1, (cond_scale_pinf _).2.1, (cond_scale_pinf _).2.2.1,
    (cond_scale_pinf _).2.2.2.1, (cond_scale_pinf _).2.2.2.2, CFloat.ofInt_zero, if_true]
  rfl

/-- With the beep flag set, a finite value of magnitude at most `2 ^ 14` stays
finite through every scaling and is collapsed to 1. -/
theorem handle_flags_beep_fin (a : sr_datafeed_analog_old) (f : dtm0660_info) (q : ℚ)
    (hq : |q| ≤ 2 ^ 14) (hb : f.is_beep = true) :
    (handle_flags a (CFloat.fin q) f).2 = CFloat.fin 1 := by
  rw [handle_flags_value, hb]
  obtain ⟨q1, e1, b1⟩ := cond_div_bounded f.is_nano q 1000000000 1000000000 14 (by norm_num)
    hq CFloat.ofInt_nano (by norm_num)
  obtain ⟨q2, e2, b2⟩ := cond_div_bounded f.is_micro q1 1000000 1000000 14 (by norm_num)
    b1 CFloat.ofInt_micro (by norm_num)
  obtain ⟨q3, e3, b3⟩ := cond_div_bounded f.is_milli q2 1000 1000 14 (by norm_num)
    b2 CFloat.ofInt_milli (by norm_num)
  obtain ⟨q4, e4, b4⟩ := cond_mul_bounded f.is_kilo q3 1000 1000 14 10 (by norm_num)
    b3 CFloat.ofInt_milli (by norm_num) (by norm_num)
  obtain ⟨q5, e5, _⟩ := cond_mul_bounded f.is_mega q4 1000000 1000000 24 20 (by norm_num)
    b4 CFloat.ofInt_micro (by norm_num) (by norm_num)
  simp only [e1, e2, e3, e4, e5, CFloat.ofInt_one, if_true]
  simp [CFloat.eq, CFloat.INFINITY]

/-- A frame that does not carry the over-range pattern gets a finite value, of
magnitude at most `2 ^ 14`. -/
theorem parse_value_bounded (buf : Frame) (h : spec_digit_codes buf ≠ spec_over_range) :
    ∃ q : ℚ, parse_value buf = (SR_OK, CFloat.fin q) ∧ |q| ≤ 2 ^ 14 := by
  rw [parse_value_of_not_over_range buf h]
  have r0 := parse_digit_range (spec_digit_code buf 0)
  have r1 := parse_digit_range (spec_digit_code buf 1)
  have r2 := parse_digit_range (spec_digit_code buf 2)
  have r3 := parse_digit_range (spec_digit_code buf 3)
  obtain ⟨n, hn⟩ : ∃ n : ℤ, ((parse_digit (spec_digit_code buf 0) * 10 +
    parse_digit (spec_digit_code buf 1)) * 10 +
    parse_digit (spec_digit_code buf 2)) * 10 +
    parse_digit (spec_digit_code buf 3) = n := ⟨_, rfl⟩
  have hnb : |n| ≤ 9999 := by rw [← hn, abs_le]; constructor <;> omega
  have hnq : |(n : ℚ)| ≤ 2 ^ 14 := by
    have : |(n : ℚ)| ≤ 9999 := by exact_mod_cast hnb
    exact this.trans (by norm_num)
  rw [hn]
  obtain ⟨s, hs, hsz⟩ : ∃ s : ℤ, (s = 1 ∨ s = -1) ∧
      (if (buf 1).val.testBit 0 = true then (-1 : ℤ) else 1) = s := by
    by_cases hb : (buf 1).val.testBit 0 = true
    · exact ⟨-1, Or.inr rfl, by rw [if_pos hb]⟩
    · exact ⟨1, Or.inl rfl, by rw [if_neg hb]⟩
  have hsn : |(s : ℚ) * n| ≤ 2 ^ 14 := by
    rcases hs with h | h <;> rw [h] <;> simpa using hnq
  have hsy : ∀ y : ℚ, |y| ≤ 2 ^ 14 → |(s : ℚ) * y| ≤ 2 ^ 14 := by
    intro y hy
    rcases hs with h | h <;> rw [h] <;> simpa using hy
  rw [hsz]
  by_cases c3 : (buf 3).val.testBit 0 = true
  · obtain ⟨y, hyb, _, hv, _⟩ := signed_quotient n hnb 1000 s (Or.inl rfl) hs
    rw [if_pos c3, hv]
    exact ⟨_, rfl, hsy y hyb⟩
  by_cases c5 : (buf 5).val.testBit 0 = true
  · obtain ⟨y, hyb, _, hv, _⟩ := signed_quotient n hnb 100 s (Or.inr (Or.inl rfl)) hs
    rw [if_neg c3, if_pos c5, hv]
    exact ⟨_, rfl, hsy y hyb⟩
  by_cases c7 : (buf 7).val.testBit 0 = true
  · obtain ⟨y, hyb, _, hv, _⟩ := signed_quotient n hnb 10 s (Or.inr (Or.inr rfl)) hs
    rw [if_neg c3, if_neg c5, if_pos c7, hv]
    exact ⟨_, rfl, hsy y hyb⟩
  · obtain ⟨_, _, _, _, hv⟩ := signed_quotient n hnb 10 s (Or.inr (Or.inr rfl)) hs
    rw [if_neg c3, if_neg c5, if_neg c7, hv]
    exact ⟨_, rfl, hsn⟩

theorem testBit_mod_sixteen (b : Fin 256) :
    b.val.testBit 0 = (b.val % 16).testBit 0 ∧ b.val.testBit 1 = (b.val % 16).testBit 1 ∧
    b.val.testBit 2 = (b.val % 16).testBit 2 ∧ b.val.testBit 3 = (b.val % 16).testBit 3 := by
  revert b; decide

theorem byte_eq_of_bits (b b' : Fin 256)
    (h : ∀ k : Fin 8, b.val.testBit k.val = b'.val.testBit k.val) : b = b' := by
  apply Fin.ext
  apply Nat.eq_of_testBit_eq
  intro i
  by_cases hi : i < 8
  · exact h ⟨i, hi⟩
  · have hp : 2 ^ 8 ≤ 2 ^ i := Nat.pow_le_pow_right (by decide) (by omega)
    rw [Nat.testBit_lt_two_pow (lt_of_lt_of_le b.isLt hp),
      Nat.testBit_lt_two_pow (lt_of_lt_of_le b'.isLt hp)]

/-- `parse_value` reads the frame only through the four digit codes and bit 0
of bytes 1, 3, 5 and 7. -/
theorem parse_value_congr (buf buf' : Frame)
    (hc : ∀ i, spec_digit_code buf i = spec_digit_code buf' i)
    (h1 : (buf 1).val.testBit 0 = (buf' 1).val.testBit 0)
    (h3 : (buf 3).val.testBit 0 = (buf' 3).val.testBit 0)
    (h5 : (buf 5).val.testBit 0 = (buf' 5).val.testBit 0)
    (h7 : (buf 7).val.testBit 0 = (buf' 7).val.testBit 0) :
    parse_value buf = parse_value buf' := by
  have codes : spec_digit_codes buf = spec_digit_codes buf' := by
    simp only [spec_digit_codes, hc]
  by_cases hol : spec_digit_codes buf = spec_over_range
  · rw [parse_value_of_over_range buf hol, parse_value_of_over_range buf' (codes ▸ hol)]
  · rw [parse_value_of_not_over_range buf hol,
      parse_value_of_not_over_range buf' (codes ▸ hol), hc 0, hc 1, hc 2, hc 3, h1, h3, h5, h7]

/-- `handle_flags` reads the flag record only through the multiplier, quantity
and modifier flags. -/
theorem handle_flags_congr (a : sr_datafeed_analog_old) (v : CFloat) (f g : dtm0660_info)
    (e1 : f.is_nano = g.is_nano) (e2 : f.is_micro = g.is_micro) (e3 : f.is_milli = g.is_milli)
    (e4 : f.is_kilo = g.is_kilo) (e5 : f.is_mega = g.is_mega) (e6 : f.is_volt = g.is_volt)
    (e7 : f.is_ampere = g.is_ampere) (e8 : f.is_ohm = g.is_ohm) (e9 : f.is_hz = g.is_hz)
    (e10 : f.is_farad = g.is_farad) (e11 : f.is_beep = g.is_beep)
    (e12 : f.is_diode = g.is_diode) (e13 : f.is_percent = g.is_percent)
    (e14 : f.is_degc = g.is_degc) (e15 : f.is_degf = g.is_degf) (e16 : f.is_ac = g.is_ac)
    (e17 : f.is_dc = g.is_dc) (e18 : f.is_auto = g.is_auto) (e19 : f.is_hold = g.is_hold)
    (e20 : f.is_rel = g.is_rel) (e21 : f.is_min = g.is_min) (e22 : f.is_max = g.is_max) :
    handle_flags a v f = handle_flags a v g := by
  unfold handle_flags
  rw [e1, e2, e3, e4, e5, e6, e7, e8, e9, e10, e11, e12, e13, e14, e15, e16, e17, e18, e19,
    e20, e21, e22]

theorem spec_digit_code_congr (buf buf' : Frame) (i : Fin 4)
    (h : ∀ j : Fin DTM0660_PACKET_SIZE, 1 ≤ j.val → j.val ≤ 8 →
      (buf j).val % 16 = (buf' j).val % 16) :
    spec_digit_code buf i = spec_digit_code buf' i := by
  unfold spec_digit_code
  rw [h _ (by simp only []; omega) (by simp only []; omega),
    h _ (by simp only []; omega) (by simp only []; omega)]

theorem spec_flags_congr (buf buf' : Frame)
    (h : ∀ j, (buf j).val % 16 = (buf' j).val % 16) : spec_flags buf = spec_flags buf' := by
  simp only [spec_flags, (testBit_mod_sixteen _).1, (testBit_mod_sixteen _).2.1,
    (testBit_mod_sixteen _).2.2.1, (testBit_mod_sixteen _).2.2.2, h]

/-! ## Flags, scaling and classification -/

/-- Claim C11: `parse_flags` stores in each flag exactly the bit the wire-format
table gives it, whatever the record held before: byte 0 bits 0..3 are AC, DC,
auto-range, RS232; byte 1 bit 0 is the sign; byte 9 is micro, nano, kilo, diode;
byte 10 is milli, percent, mega, beep; byte 11 is farad, ohm, relative, hold;
byte 12 is ampere, volt, hertz, low-battery; byte 13 is fahrenheit, celsius,
user symbol 0, user symbol 1; byte 14 is auto-power-off, min, min-max, max. -/
theorem parse_flags_wire_table (buf : Frame) (info : dtm0660_info) :
    (parse_flags buf info).is_ac = (buf 0).val.testBit 0 ∧
    (parse_flags buf info).is_dc = (buf 0).val.testBit 1 ∧
    (parse_flags buf info).is_auto = (buf 0).val.testBit 2 ∧
    (parse_flags buf info).is_rs232 = (buf 0).val.testBit 3 ∧
    (parse_flags buf info).is_sign = (buf 1).val.testBit 0 ∧
    (parse_flags buf info).is_micro = (buf 9).val.testBit 0 ∧
    (parse_flags buf info).is_nano = (buf 9).val.testBit 1 ∧
    (parse_flags buf info).is_kilo = (buf 9).val.testBit 2 ∧
    (parse_flags buf info).is_diode = (buf 9).val.testBit 3 ∧
    (parse_flags buf info).is_milli = (buf 10).val.testBit 0 ∧
    (parse_flags buf info).is_percent = (buf 10).val.testBit 1 ∧
    (parse_flags buf info).is_mega = (buf 10).val.testBit 2 ∧
    (parse_flags buf info).is_beep = (buf 10).val.testBit 3 ∧
    (parse_flags buf info).is_farad = (buf 11).val.testBit 0 ∧
    (parse_flags buf info).is_ohm = (buf 11).val.testBit 1 ∧
    (parse_flags buf info).is_rel = (buf 11).val.testBit 2 ∧
    (parse_flags buf info).is_hold = (buf 11).val.testBit 3 ∧
    (parse_flags buf info).is_ampere = (buf 12).val.testBit 0 ∧
    (parse_flags buf info).is_volt = (buf 12).val.testBit 1 ∧
    (parse_flags buf info).is_hz = (buf 12).val.testBit 2 ∧
    (parse_flags buf info).is_bat = (buf 12).val.testBit 3 ∧
    (parse_flags buf info).is_degf = (buf 13).val.testBit 0 ∧
    (parse_flags buf info).is_degc = (buf 13).val.testBit 1 ∧
    (parse_flags buf info).is_c2c1_00 = (buf 13).val.testBit 2 ∧
    (parse_flags buf info).is_c2c1_01 = (buf 13).val.testBit 3 ∧
    (parse_flags buf info).is_apo = (buf 14).val.testBit 0 ∧
    (parse_flags buf info).is_min = (buf 14).val.testBit 1 ∧
    (parse_flags buf info).is_minmax = (buf 14).val.testBit 2 ∧
    (parse_flags buf info).is_max = (buf 14).val.testBit 3 := by
  rw [parse_flags_eq_spec_flags]
  refine ⟨rfl, rfl, rfl, rfl, rfl, rfl, rfl, rfl, rfl, rfl, rfl, rfl, rfl, rfl, rfl, rfl, rfl,
    rfl, rfl, rfl, rfl, rfl, rfl, rfl, rfl, rfl, rfl, rfl, rfl⟩

/-- Claim C12 fails: with the nano flag alone, the raw value 1234 becomes
10854379 / 2^43 (bit pattern `0x35a59feb`), not 1234 / 10^9; with the mega
flag alone, the largest finite binary32 number becomes positive infinity, not
its product with 10^6. -/
theorem handle_flags_scaling_rounded_counterexample :
    [info_nano.is_nano, info_nano.is_micro, info_nano.is_milli, info_nano.is_kilo,
      info_nano.is_mega].count true ≤ 1 ∧
    (handle_flags analog_clear (CFloat.fin 1234) info_nano).2 =
      CFloat.fin (10854379 / 8796093022208) ∧
    (handle_flags analog_clear (CFloat.fin 1234) info_nano).2 ≠
      CFloat.fin (1234 / 10 ^ 9) ∧
    [info_mega.is_nano, info_mega.is_micro, info_mega.is_milli, info_mega.is_kilo,
      info_mega.is_mega].count true ≤ 1 ∧
    (handle_flags analog_clear (CFloat.fin (2 ^ 128 - 2 ^ 104)) info_mega).2 = CFloat.pinf ∧
    (handle_flags analog_clear (CFloat.fin (2 ^ 128 - 2 ^ 104)) info_mega).2 ≠
      CFloat.fin ((2 ^ 128 - 2 ^ 104) * 10 ^ 6) := by
  have hn : (handle_flags analog_clear (CFloat.fin 1234) info_nano).2 =
      CFloat.fin (10854379 / 8796093022208) := by
    rw [handle_flags_value]
    simp only [info_nano, info_clear, if_true, Bool.false_eq_true, if_false]
    rw [CFloat.ofInt_nano, CFloat.div_fin _ _ (by norm_num), round_1234_nano]
  have hm : (handle_flags analog_clear (CFloat.fin (2 ^ 128 - 2 ^ 104)) info_mega).2 =
      CFloat.pinf := by
    rw [handle_flags_value]
    simp only [info_mega, info_clear, if_true, Bool.false_eq_true, if_false]
    rw [CFloat.ofInt_micro, CFloat.mul_fin, round_flt_max_mega]
  refine ⟨by decide, hn, ?_, by decide, hm, ?_⟩
  · rw [hn]
    intro h
    injection h with h
    norm_num at h
  · rw [hm]
    intro h
    cases h

/-- Claim C12 as amended: when at most one multiplier flag is set,
`handle_flags` applies exactly the scaling of that flag to the raw value `v`,
in binary32: the float quotient of `v` by 10^9 for nano, by 10^6 for micro, by
10^3 for milli, the float product of `v` with 10^3 for kilo, with 10^6 for
mega, and `v` itself when no multiplier flag is set.  For a finite `v` the
quotient or product is the exact one rounded to binary32 (`CFloat.round`,
which overflows to an infinity).  The value returned is this scaled value,
collapsed to 0 or 1 only when the beep flag is set. -/
theorem handle_flags_scaling (a : sr_datafeed_analog_old) (v : CFloat) (f : dtm0660_info)
    (h : [f.is_nano, f.is_micro, f.is_milli, f.is_kilo, f.is_mega].count true ≤ 1) :
    ∃ scaled : CFloat,
      scaled =
        (if f.is_nano then v.div (CFloat.ofInt 1000000000)
         else if f.is_micro then v.div (CFloat.ofInt 1000000)
         else if f.is_milli then v.div (CFloat.ofInt 1000)
         else if f.is_kilo then v.mul (CFloat.ofInt 1000)
         else if f.is_mega then v.mul (CFloat.ofInt 1000000)
         else v) ∧
      (∀ q : ℚ, v = CFloat.fin q → scaled =
        (if f.is_nano then CFloat.round (q / 10 ^ 9)
         else if f.is_micro then CFloat.round (q / 10 ^ 6)
         else if f.is_milli then CFloat.round (q / 10 ^ 3)
         else if f.is_kilo then CFloat.round (q * 10 ^ 3)
         else if f.is_mega then CFloat.round (q * 10 ^ 6)
         else CFloat.fin q)) ∧
      (handle_flags a v f).2 =
        (if f.is_beep then
          (if scaled.eq CFloat.INFINITY then CFloat.fin 0 else CFloat.fin 1)
         else scaled) := by
  have e9 : CFloat.ofInt 1000000000 = CFloat.fin (10 ^ 9) := by
    rw [CFloat.ofInt_nano]; norm_num
  have e6 : CFloat.ofInt 1000000 = CFloat.fin (10 ^ 6) := by
    rw [CFloat.ofInt_micro]; norm_num
  have e3 : CFloat.ofInt 1000 = CFloat.fin (10 ^ 3) := by
    rw [CFloat.ofInt_milli]; norm_num
  refine ⟨_, rfl, ?_, ?_⟩
  · intro q hq
    subst hq
    rw [e9, e6, e3, CFloat.div_fin _ _ (by norm_num), CFloat.div_fin _ _ (by norm_num),
      CFloat.div_fin _ _ (by norm_num), CFloat.mul_fin, CFloat.mul_fin]
  · rw [handle_flags_value, CFloat.ofInt_zero, CFloat.ofInt_one]
    revert h
    cases f.is_nano <;> cases f.is_micro <;> cases f.is_milli <;> cases f.is_kilo <;>
      cases f.is_mega <;> intro h <;>
      first
        | exact absurd h (by decide)
        | simp only [Bool.false_eq_true, if_false, if_true]

/-- Witness of the amended C12: the raw value 1234 becomes 1234000 under kilo
(exact) and 10854379 / 2^43, the binary32 number nearest to 1234 / 10^9, under
nano. -/
theorem handle_flags_scaling_witness :
    (handle_flags analog_clear (CFloat.fin 1234) info_kilo).2 = CFloat.fin 1234000 ∧
    (handle_flags analog_clear (CFloat.fin 1234) info_nano).2 =
      CFloat.fin (10854379 / 8796093022208) := by
  obtain ⟨s, _, hs, h⟩ :=
    handle_flags_scaling analog_clear (CFloat.fin 1234) info_kilo (by decide)
  obtain ⟨s', _, hs', h'⟩ :=
    handle_flags_scaling analog_clear (CFloat.fin 1234) info_nano (by decide)
  refine ⟨?_, ?_⟩
  · rw [h, hs 1234 rfl, if_neg (by decide), if_neg (by decide), if_neg (by decide),
      if_neg (by decide), if_pos (by decide)]
    have e : (1234 : ℚ) * 10 ^ 3 = 1234 * 1000 := by norm_num
    rw [e, round_1234_kilo]
  · rw [h', hs' 1234 rfl, if_neg (by decide), if_pos (by decide)]
    have e : (1234 : ℚ) / 10 ^ 9 = 1234 / 1000000000 := by norm_num
    rw [e, round_1234_nano]

/-- Claim C13: when at least one of the ten quantity flags is set,
`handle_flags` leaves the quantity and unit of the last set flag in the order
volt, ampere, ohm, hertz, farad, beep/continuity, diode, percent, celsius,
fahrenheit; when exactly one flag is set, these are the quantity and unit of
that flag. -/
theorem handle_flags_last_quantity (a : sr_datafeed_analog_old) (v : CFloat)
    (f : dtm0660_info) :
    (∀ p, ((spec_quantity_order f).filter (fun p => p.1)).getLast? = some p →
      (handle_flags a v f).1.mq = p.2.1 ∧ (handle_flags a v f).1.unit = p.2.2) ∧
    (∀ p ∈ spec_quantity_order f, p.1 = true →
      ((spec_quantity_order f).filter (fun p => p.1)).length = 1 →
      (handle_flags a v f).1.mq = p.2.1 ∧ (handle_flags a v f).1.unit = p.2.2) := by
  have main : ∀ p, ((spec_quantity_order f).filter (fun p => p.1)).getLast? = some p →
      (handle_flags a v f).1.mq = p.2.1 ∧ (handle_flags a v f).1.unit = p.2.2 := by
    intro p hp
    have h := last_quantity_eq a v f
    rw [hp] at h
    split_ifs at h
    · simp only [Option.map_some', Option.some.injEq] at h
      rw [h]
      exact ⟨rfl, rfl⟩
    · simp at h
  refine ⟨main, fun p hp hset hone => main p ?_⟩
  have hmem : p ∈ (spec_quantity_order f).filter (fun p => p.1) :=
    List.mem_filter.2 ⟨hp, hset⟩
  obtain ⟨x, hx⟩ := List.length_eq_one.1 hone
  rw [hx] at hmem ⊢
  rw [List.mem_singleton.1 hmem]
  rfl

/-- Witness of C13: with ohm and beep set the last set flag is beep, which
gives continuity and boolean; the frame `frame_123_4` has the volt flag alone,
which gives voltage and volt. -/
theorem handle_flags_last_quantity_witness :
    ((handle_flags analog_clear (CFloat.fin 0) info_ohm_beep).1.mq = SR_MQ_CONTINUITY ∧
      (handle_flags analog_clear (CFloat.fin 0) info_ohm_beep).1.unit = SR_UNIT_BOOLEAN) ∧
    ((handle_flags analog_clear (CFloat.fin 0) (spec_flags frame_123_4)).1.mq =
        SR_MQ_VOLTAGE ∧
      (handle_flags analog_clear (CFloat.fin 0) (spec_flags frame_123_4)).1.unit =
        SR_UNIT_VOLT) :=
  ⟨(handle_flags_last_quantity analog_clear (CFloat.fin 0) info_ohm_beep).1
      (true, SR_MQ_CONTINUITY, SR_UNIT_BOOLEAN) (by decide),
   (handle_flags_last_quantity analog_clear (CFloat.fin 0) (spec_flags frame_123_4)).2
      (true, SR_MQ_VOLTAGE, SR_UNIT_VOLT) (by decide) rfl (by decide)⟩

/-- Claim C14: on a frame with the beep/continuity flag (byte 10 bit 3) set,
`sr_dtm0660_parse` returns the value 0 when the frame carries the over-range
pattern, and the value 1 otherwise, that is, whenever `parse_value` gives a
finite value; multiplier flags and the sign bit are arbitrary. -/
theorem sr_dtm0660_parse_continuity (buf : Frame) (floatval : CFloat)
    (analog : sr_datafeed_analog_old) (info : dtm0660_info)
    (hbeep : (buf 10).val.testBit 3 = true) :
    (spec_digit_codes buf = spec_over_range →
      (sr_dtm0660_parse buf floatval analog info).2.1 = CFloat.fin 0) ∧
    (spec_digit_codes buf ≠ spec_over_range →
      (∃ q : ℚ, parse_value buf = (SR_OK, CFloat.fin q)) ∧
      (sr_dtm0660_parse buf floatval analog info).2.1 = CFloat.fin 1) := by
  have hb : (spec_flags buf).is_beep = true := hbeep
  refine ⟨fun hol => ?_, fun hol => ?_⟩
  · rw [sr_dtm0660_parse_eq, parse_value_of_over_range buf hol]
    exact handle_flags_beep_pinf analog _ hb
  · obtain ⟨q, hq, hqb⟩ := parse_value_bounded buf hol
    refine ⟨⟨q, hq⟩, ?_⟩
    rw [sr_dtm0660_parse_eq, hq]
    exact handle_flags_beep_fin analog _ q hqb hb

/-- Witness of C14: the open-circuit frame gives 0, the closed-circuit frame
gives 1. -/
theorem sr_dtm0660_parse_continuity_witness :
    (sr_dtm0660_parse frame_beep_open (CFloat.fin 7) analog_clear info_clear).2.1 =
      CFloat.fin 0 ∧
    (sr_dtm0660_parse frame_beep_closed (CFloat.fin 7) analog_clear info_clear).2.1 =
      CFloat.fin 1 :=
  ⟨(sr_dtm0660_parse_continuity frame_beep_open (CFloat.fin 7) analog_clear info_clear
      (by decide)).1 (by decide),
   ((sr_dtm0660_parse_continuity frame_beep_closed (CFloat.fin 7) analog_clear info_clear
      (by decide)).2 (by decide)).2⟩

/-- Claim C15: the modifier set left by `handle_flags` is the initial set
united with the modifiers whose flag is set among AC, DC, auto-range, diode,
hold, relative, min, max; from an empty initial set each of these eight is
present exactly when its flag is set and no other modifier is present. -/
theorem handle_flags_modifiers (a : sr_datafeed_analog_old) (v : CFloat)
    (f : dtm0660_info) :
    (∀ x : sr_mqflag, x ∈ (handle_flags a v f).1.mqflags ↔
      x ∈ a.mqflags ∨ (x = SR_MQFLAG_AC ∧ f.is_ac = true) ∨
      (x = SR_MQFLAG_DC ∧ f.is_dc = true) ∨
      (x = SR_MQFLAG_AUTORANGE ∧ f.is_auto = true) ∨
      (x = SR_MQFLAG_DIODE ∧ f.is_diode = true) ∨
      (x = SR_MQFLAG_HOLD ∧ f.is_hold = true) ∨
      (x = SR_MQFLAG_RELATIVE ∧ f.is_rel = true) ∨
      (x = SR_MQFLAG_MIN ∧ f.is_min = true) ∨
      (x = SR_MQFLAG_MAX ∧ f.is_max = true)) ∧
    (a.mqflags = ∅ →
      (SR_MQFLAG_AC ∈ (handle_flags a v f).1.mqflags ↔ f.is_ac = true) ∧
      (SR_MQFLAG_DC ∈ (handle_flags a v f).1.mqflags ↔ f.is_dc = true) ∧
      (SR_MQFLAG_AUTORANGE ∈ (handle_flags a v f).1.mqflags ↔ f.is_auto = true) ∧
      (SR_MQFLAG_DIODE ∈ (handle_flags a v f).1.mqflags ↔ f.is_diode = true) ∧
      (SR_MQFLAG_HOLD ∈ (handle_flags a v f).1.mqflags ↔ f.is_hold = true) ∧
      (SR_MQFLAG_RELATIVE ∈ (handle_flags a v f).1.mqflags ↔ f.is_rel = true) ∧
      (SR_MQFLAG_MIN ∈ (handle_flags a v f).1.mqflags ↔ f.is_min = true) ∧
      (SR_MQFLAG_MAX ∈ (handle_flags a v f).1.mqflags ↔ f.is_max = true) ∧
      (∀ n : Nat, sr_mqflag.other n ∉ (handle_flags a v f).1.mqflags)) := by
  refine ⟨mem_handle_flags_mqflags a v f, fun h => ?_⟩
  simp [mem_handle_flags_mqflags, h]

/-- Witness of C15: from an empty set, the flags of `frame_123_4` (DC and
auto-range) give DC and auto-range and not AC. -/
theorem handle_flags_modifiers_witness :
    SR_MQFLAG_DC ∈ (handle_flags analog_clear (CFloat.fin 0)
      (spec_flags frame_123_4)).1.mqflags ∧
    SR_MQFLAG_AUTORANGE ∈ (handle_flags analog_clear (CFloat.fin 0)
      (spec_flags frame_123_4)).1.mqflags ∧
    SR_MQFLAG_AC ∉ (handle_flags analog_clear (CFloat.fin 0)
      (spec_flags frame_123_4)).1.mqflags :=
  ⟨((handle_flags_modifiers analog_clear (CFloat.fin 0) (spec_flags frame_123_4)).2
      rfl).2.1.2 (by decide),
   ((handle_flags_modifiers analog_clear (CFloat.fin 0) (spec_flags frame_123_4)).2
      rfl).2.2.1.2 (by decide),
   fun h => absurd (((handle_flags_modifiers analog_clear (CFloat.fin 0)
      (spec_flags frame_123_4)).2 rfl).1.1 h) (by decide)⟩

/-! ## What the result depends on, and repeated runs -/

/-- Claim C16: two frames that agree on every bit except the annunciator-only
bits (low-battery, the two user symbols, auto-power-off, min-max, RS232 marker)
give, from the same output record, the same status, value, quantity, unit and
modifier set. -/
theorem sr_dtm0660_parse_annunciators (buf buf' : Frame) (floatval : CFloat)
    (analog : sr_datafeed_analog_old) (info : dtm0660_info)
    (h : ∀ (i : Fin DTM0660_PACKET_SIZE) (k : Fin 8), (i, k) ∉ spec_annunciator_bits →
      (buf i).val.testBit k.val = (buf' i).val.testBit k.val) :
    (sr_dtm0660_parse buf floatval analog info).1 =
      (sr_dtm0660_parse buf' floatval analog info).1 ∧
    (sr_dtm0660_parse buf floatval analog info).2.1 =
      (sr_dtm0660_parse buf' floatval analog info).2.1 ∧
    (sr_dtm0660_parse buf floatval analog info).2.2.1.mq =
      (sr_dtm0660_parse buf' floatval analog info).2.2.1.mq ∧
    (sr_dtm0660_parse buf floatval analog info).2.2.1.unit =
      (sr_dtm0660_parse buf' floatval analog info).2.2.1.unit ∧
    (sr_dtm0660_parse buf floatval analog info).2.2.1.mqflags =
      (sr_dtm0660_parse buf' floatval analog info).2.2.1.mqflags := by
  have hb : ∀ i : Fin DTM0660_PACKET_SIZE, (∀ k : Fin 8, (i, k) ∉ spec_annunciator_bits) →
      buf i = buf' i := fun i hi => byte_eq_of_bits _ _ fun k => h i k (hi k)
  have hfree : ∀ j : Fin DTM0660_PACKET_SIZE, 1 ≤ j.val → j.val ≤ 8 →
      ∀ k : Fin 8, (j, k) ∉ spec_annunciator_bits := by decide
  have hc : ∀ i, spec_digit_code buf i = spec_digit_code buf' i := fun i =>
    spec_digit_code_congr buf buf' i fun j h1 h8 => by rw [hb j (hfree j h1 h8)]
  have b1 := hb 1 (by decide)
  have b3 := hb 3 (by decide)
  have b5 := hb 5 (by decide)
  have b7 := hb 7 (by decide)
  have hv : parse_value buf = parse_value buf' :=
    parse_value_congr buf buf' hc (by rw [b1]) (by rw [b3]) (by rw [b5]) (by rw [b7])
  have hh : handle_flags analog (parse_value buf').2 (spec_flags buf) =
      handle_flags analog (parse_value buf').2 (spec_flags buf') :=
    handle_flags_congr _ _ _ _ (h 9 1 (by decide)) (h 9 0 (by decide)) (h 10 0 (by decide))
      (h 9 2 (by decide)) (h 10 2 (by decide)) (h 12 1 (by decide)) (h 12 0 (by decide))
      (h 11 1 (by decide)) (h 12 2 (by decide)) (h 11 0 (by decide)) (h 10 3 (by decide))
      (h 9 3 (by decide)) (h 10 1 (by decide)) (h 13 1 (by decide)) (h 13 0 (by decide))
      (h 0 0 (by decide)) (h 0 1 (by decide)) (h 0 2 (by decide)) (h 11 3 (by decide))
      (h 11 2 (by decide)) (h 14 1 (by decide)) (h 14 3 (by decide))
  rw [sr_dtm0660_parse_eq, sr_dtm0660_parse_eq, hv, hh]
  exact ⟨rfl, rfl, rfl, rfl, rfl⟩

/-- Witness of C16: `frame_123_4` and the same frame with all six annunciator
bits flipped. -/
theorem sr_dtm0660_parse_annunciators_witness :
    (sr_dtm0660_parse frame_123_4_annunciators (CFloat.fin 0) analog_clear info_clear).2.1 =
      (sr_dtm0660_parse frame_123_4 (CFloat.fin 0) analog_clear info_clear).2.1 ∧
    frame_123_4_annunciators ≠ frame_123_4 :=
  ⟨(sr_dtm0660_parse_annunciators frame_123_4_annunciators frame_123_4 (CFloat.fin 0)
    analog_clear info_clear (by decide)).2.1, by decide⟩

/-- Claim C17: running `sr_dtm0660_parse` on a frame a second time, on the value,
output record and flag record the first run left, returns the same status and
the same value, output record and flag record as the first run. -/
theorem sr_dtm0660_parse_idempotent (buf : Frame) (floatval : CFloat)
    (analog : sr_datafeed_analog_old) (info : dtm0660_info) :
    sr_dtm0660_parse buf
      (sr_dtm0660_parse buf floatval analog info).2.1
      (sr_dtm0660_parse buf floatval analog info).2.2.1
      (sr_dtm0660_parse buf floatval analog info).2.2.2 =
    sr_dtm0660_parse buf floatval analog info := by
  simp only [sr_dtm0660_parse_eq, handle_flags_idem]

/-- Claim C18: `parse_value` returns `SR_OK` on every frame, and so does
`sr_dtm0660_parse`, on every frame and from every output record. -/
theorem sr_dtm0660_parse_never_fails :
    (∀ buf : Frame, (parse_value buf).1 = SR_OK) ∧
    (∀ (buf : Frame) (floatval : CFloat) (analog : sr_datafeed_analog_old)
      (info : dtm0660_info), (sr_dtm0660_parse buf floatval analog info).1 = SR_OK) :=
  ⟨parse_value_status, sr_dtm0660_parse_status⟩

/-- Claim C19: two frames whose bytes agree in their low four bits give, from
the same output record, the same status, value, output record and flag record:
the sync nibbles are not read by `sr_dtm0660_parse`. -/
theorem sr_dtm0660_parse_low_nibbles (buf buf' : Frame) (floatval : CFloat)
    (analog : sr_datafeed_analog_old) (info : dtm0660_info)
    (h : ∀ i, (buf i).val % 16 = (buf' i).val % 16) :
    sr_dtm0660_parse buf floatval analog info = sr_dtm0660_parse buf' floatval analog info := by
  have hv : parse_value buf = parse_value buf' :=
    parse_value_congr buf buf' (fun i => spec_digit_code_congr buf buf' i fun j _ _ => h j)
      (by rw [(testBit_mod_sixteen _).1, h, ← (testBit_mod_sixteen _).1])
      (by rw [(testBit_mod_sixteen _).1, h, ← (testBit_mod_sixteen _).1])
      (by rw [(testBit_mod_sixteen _).1, h, ← (testBit_mod_sixteen _).1])
      (by rw [(testBit_mod_sixteen _).1, h, ← (testBit_mod_sixteen _).1])
  rw [sr_dtm0660_parse_eq, sr_dtm0660_parse_eq, hv, spec_flags_congr buf buf' h]

/-- Witness of C19: `frame_123_4` and its low nibbles under zeroed sync nibbles,
a frame `sync_nibbles_valid` rejects. -/
theorem sr_dtm0660_parse_low_nibbles_witness :
    sr_dtm0660_parse frame_123_4_unsynced (CFloat.fin 0) analog_clear info_clear =
      sr_dtm0660_parse frame_123_4 (CFloat.fin 0) analog_clear info_clear ∧
    sync_nibbles_valid frame_123_4_unsynced = false :=
  ⟨sr_dtm0660_parse_low_nibbles frame_123_4_unsynced frame_123_4 (CFloat.fin 0) analog_clear
    info_clear (by decide), by decide⟩

/-- Claim C20: on a frame with none of the ten quantity flags set,
`sr_dtm0660_parse` leaves the quantity and the unit of the output record as
they were. -/
theorem sr_dtm0660_parse_keeps_quantity (buf : Frame) (floatval : CFloat)
    (analog : sr_datafeed_analog_old) (info : dtm0660_info)
    (h : ∀ b ∈ spec_quantity_flags buf, b = false) :
    (sr_dtm0660_parse buf floatval analog info).2.2.1.mq = analog.mq ∧
    (sr_dtm0660_parse buf floatval analog info).2.2.1.unit = analog.unit := by
  simp only [spec_quantity_flags, List.mem_cons, List.mem_singleton, forall_eq_or_imp,
    forall_eq, List.not_mem_nil, false_implies, implies_true, and_true] at h
  obtain ⟨h1, h2, h3, h4, h5, h6, h7, h8, h9, h10⟩ := h
  rw [sr_dtm0660_parse_eq]
  simp only [handle_flags_mq, handle_flags_unit, h1, h2, h3, h4, h5, h6, h7, h8, h9, h10]
  exact ⟨rfl, rfl⟩

/-- Witness of C20: the frame `frame_no_quantity`. -/
theorem sr_dtm0660_parse_keeps_quantity_witness :
    (sr_dtm0660_parse frame_no_quantity (CFloat.fin 0) analog_clear info_clear).2.2.1.mq =
      sr_mq.other 0 ∧
    (sr_dtm0660_parse frame_no_quantity (CFloat.fin 0) analog_clear info_clear).2.2.1.unit =
      sr_unit.other 0 :=
  sr_dtm0660_parse_keeps_quantity frame_no_quantity (CFloat.fin 0) analog_clear info_clear
    (by decide)

end Dtm0660
